import Mathlib

/-!
Verification development for the Entropy-Collapse-Simulator repository.

The Python source is shallowly embedded over exact rationals (ℚ standing
for Python floats).  External numerical routines that the source calls
but does not implement (numpy square root, natural logarithm, and the
linear-system solver `np.linalg.solve` / `np.linalg.lstsq`) are taken as
function parameters, so every theorem quantifies over them.  Stateful
Python code (in-place mutation of the frame and of history lists) is
embedded by explicit state passing.  Array indexing is embedded with
`getD` defaults; the claims under study are evaluated on frames where
every lookup succeeds, matching the source's behaviour there.
-/

/-- Embeds core/models.py Material: name, E, A, I, sigma_y, rho. -/
structure Material where
  name : String
  E : ℚ
  A : ℚ
  Imom : ℚ
  sigma_y : ℚ
  rho : ℚ
deriving DecidableEq, Repr

/-- Embeds core/models.py Node: id, coordinates and restrained dofs. -/
structure Node where
  id : ℕ
  x : ℚ
  y : ℚ
  z : ℚ
  fixed_dofs : List ℕ
deriving DecidableEq, Repr

/-- Embeds core/models.py Member: id, endpoint node ids, material, failed flag. -/
structure Member where
  id : ℕ
  node_start : ℕ
  node_end : ℕ
  material : Material
  failed : Bool
deriving DecidableEq, Repr

/-- Convenience accessor mirroring Member.E. -/
def Member.E (m : Member) : ℚ := m.material.E

/-- Convenience accessor mirroring Member.A. -/
def Member.A (m : Member) : ℚ := m.material.A

/-- Convenience accessor mirroring Member.I. -/
def Member.Imom (m : Member) : ℚ := m.material.Imom

/-- Convenience accessor mirroring Member.sigma_y. -/
def Member.sigma_y (m : Member) : ℚ := m.material.sigma_y

/-- Embeds core/models.py Load: node id, dof index, magnitude. -/
structure Load where
  node_id : ℕ
  dof : ℕ
  magnitude : ℚ
deriving DecidableEq, Repr

/-- Embeds core/models.py FrameData: name, nodes, members, loads. -/
structure FrameData where
  name : String
  nodes : List Node
  members : List Member
  loads : List Load
deriving DecidableEq, Repr

/-- Embeds core/models.py MemberState: per-step snapshot of a member. -/
structure MemberState where
  member_id : ℕ
  strain_energy : ℚ
  axial_force : ℚ
  deformation : ℚ
  failed : Bool
deriving DecidableEq, Repr

/-- Embeds core/models.py EnergyState: per-step aggregate of member states. -/
structure EnergyState where
  step : ℕ
  total_energy : ℚ
  member_states : List MemberState
deriving DecidableEq, Repr

/-- Embeds core/models.py EntropyRecord: per-step entropy metrics. -/
structure EntropyRecord where
  step : ℕ
  entropy : ℚ
  delta_entropy : ℚ
  energy_distribution : List (ℕ × ℚ)
deriving DecidableEq, Repr

/-- Embeds core/models.py SimulationResult: final output of a run. -/
structure SimulationResult where
  frame_name : String
  energy_history : List EnergyState
  entropy_history : List EntropyRecord
  collapse_detected : Bool
  collapse_step : Option ℕ
  failed_sequence : List ℕ
deriving DecidableEq, Repr

/-- Default node used to totalize the raising lookup structure/stiffness.py _get_node. -/
def defaultNode : Node := ⟨0, 0, 0, 0, []⟩

/-- Default member used to totalize the raising lookup solver/failure.py _get_member. -/
def defaultMember : Member := ⟨0, 0, 0, ⟨"", 0, 0, 0, 0, 0⟩, false⟩

/-- Default member state for list indexing in theorem statements. -/
def defaultMS : MemberState := ⟨0, 0, 0, 0, false⟩

/-- Default energy state for list indexing in theorem statements. -/
def defaultES : EnergyState := ⟨0, 0, []⟩

/-- Default entropy record for list indexing in theorem statements. -/
def defaultER : EntropyRecord := ⟨0, 0, 0, []⟩

/-- Embeds _get_node (structure/stiffness.py, solver/redistribution.py):
first node with the given id; the source raises when absent, totalized here. -/
def getNodeL (frame : FrameData) (nid : ℕ) : Node :=
  (frame.nodes.find? (fun n => n.id = nid)).getD defaultNode

/-- Embeds _get_member (solver/failure.py): first member with the given id. -/
def getMemberL (frame : FrameData) (mid : ℕ) : Member :=
  (frame.members.find? (fun m => m.id = mid)).getD defaultMember

/-- Dot product of the first n entries of two indexed families,
embedding numpy matrix-vector rows. -/
def dotQ : ℕ → (ℕ → ℚ) → (ℕ → ℚ) → ℚ
  | 0, _, _ => 0
  | n + 1, f, g => dotQ n f g + f n * g n

/-- Embeds _member_length (structure/stiffness.py): Euclidean member length,
with the numpy square root passed in as sq. -/
def memberLengthQ (sq : ℚ → ℚ) (m : Member) (frame : FrameData) : ℚ :=
  let ns := getNodeL frame m.node_start
  let ne := getNodeL frame m.node_end
  sq ((ne.x - ns.x) ^ 2 + (ne.y - ns.y) ^ 2 + (ne.z - ns.z) ^ 2)

/-- Embeds _local_stiffness (structure/stiffness.py): the 12 by 12 local
Euler-Bernoulli beam stiffness, as a function of the two indices. -/
def localStiffnessQ (sq : ℚ → ℚ) (m : Member) (frame : FrameData) : ℕ → ℕ → ℚ :=
  let L := memberLengthQ sq m frame
  let E := m.E
  let A := m.A
  let Imom := m.Imom
  fun i j =>
    if (i = 0 ∧ j = 0) ∨ (i = 6 ∧ j = 6) then E * A / L
    else if (i = 0 ∧ j = 6) ∨ (i = 6 ∧ j = 0) then -(E * A / L)
    else if (i = 1 ∧ j = 1) ∨ (i = 7 ∧ j = 7) then 12 * E * Imom / L ^ 3
    else if (i = 1 ∧ j = 7) ∨ (i = 7 ∧ j = 1) then -(12 * E * Imom / L ^ 3)
    else if (i = 1 ∧ j = 5) ∨ (i = 5 ∧ j = 1) ∨ (i = 1 ∧ j = 11) ∨ (i = 11 ∧ j = 1) then
      6 * E * Imom / L ^ 2
    else if (i = 7 ∧ j = 5) ∨ (i = 5 ∧ j = 7) ∨ (i = 7 ∧ j = 11) ∨ (i = 11 ∧ j = 7) then
      -(6 * E * Imom / L ^ 2)
    else if (i = 5 ∧ j = 5) ∨ (i = 11 ∧ j = 11) then 4 * E * Imom / L
    else if (i = 5 ∧ j = 11) ∨ (i = 11 ∧ j = 5) then 2 * E * Imom / L
    else 0

/-- Cross product of two rational 3-vectors, embedding np.cross. -/
def crossQ (a b : ℚ × ℚ × ℚ) : ℚ × ℚ × ℚ :=
  (a.2.1 * b.2.2 - a.2.2 * b.2.1,
   a.2.2 * b.1 - a.1 * b.2.2,
   a.1 * b.2.1 - a.2.1 * b.1)

/-- Euclidean norm of a rational 3-vector via the provided square root,
embedding np.linalg.norm. -/
def normQ (sq : ℚ → ℚ) (v : ℚ × ℚ × ℚ) : ℚ :=
  sq (v.1 ^ 2 + v.2.1 ^ 2 + v.2.2 ^ 2)

/-- Division of a 3-vector by a scalar. -/
def smulInvQ (v : ℚ × ℚ × ℚ) (c : ℚ) : ℚ × ℚ × ℚ :=
  (v.1 / c, v.2.1 / c, v.2.2 / c)

/-- Component access for a rational 3-vector. -/
def compQ (v : ℚ × ℚ × ℚ) : ℕ → ℚ
  | 0 => v.1
  | 1 => v.2.1
  | _ => v.2.2

/-- Embeds _transformation_matrix (structure/stiffness.py): the 12 by 12
block-diagonal rotation built from the member axis and the first
non-collinear reference vector among global Y, Z, X.  The source leaves
local_z undefined when every candidate fails (a zero axis); that corner is
totalized with the global-X candidate. -/
def transformationQ (sq : ℚ → ℚ) (m : Member) (frame : FrameData) : ℕ → ℕ → ℚ :=
  let ns := getNodeL frame m.node_start
  let ne := getNodeL frame m.node_end
  let dx := ne.x - ns.x
  let dy := ne.y - ns.y
  let dz := ne.z - ns.z
  let L := sq (dx ^ 2 + dy ^ 2 + dz ^ 2)
  let lx : ℚ × ℚ × ℚ := (dx / L, dy / L, dz / L)
  let cY := crossQ lx (0, 1, 0)
  let cZ := crossQ lx (0, 0, 1)
  let cX := crossQ lx (1, 0, 0)
  let lz :=
    if normQ sq cY > 1 / 1000000 then smulInvQ cY (normQ sq cY)
    else if normQ sq cZ > 1 / 1000000 then smulInvQ cZ (normQ sq cZ)
    else smulInvQ cX (normQ sq cX)
  let ly0 := crossQ lz lx
  let ly := smulInvQ ly0 (normQ sq ly0)
  fun a b =>
    if a / 3 = b / 3 then
      match a % 3 with
      | 0 => compQ lx (b % 3)
      | 1 => compQ ly (b % 3)
      | _ => compQ lz (b % 3)
    else 0

/-- Embeds _member_dofs (structure/stiffness.py): the 12 global dof indices. -/
def memberDofs (m : Member) : List ℕ :=
  (List.range 6).map (fun k => m.node_start * 6 + k) ++
    (List.range 6).map (fun k => m.node_end * 6 + k)

/-- Product of two 12 by 12 function matrices. -/
def matMul12 (A B : ℕ → ℕ → ℚ) : ℕ → ℕ → ℚ :=
  fun i j => dotQ 12 (A i) (fun k => B k j)

/-- Transpose of a function matrix. -/
def transposeQ (A : ℕ → ℕ → ℚ) : ℕ → ℕ → ℚ := fun i j => A j i

/-- Accumulates one non-failed member's rotated stiffness block into the
global matrix, embedding the assembly loop body of assemble_global_stiffness. -/
def addMemberK (sq : ℚ → ℚ) (frame : FrameData) (K : ℕ → ℕ → ℚ) (m : Member) : ℕ → ℕ → ℚ :=
  let kLocal := localStiffnessQ sq m frame
  let T := transformationQ sq m frame
  let kGlobal := matMul12 (matMul12 (transposeQ T) kLocal) T
  let dofs := memberDofs m
  (List.range 12).foldl
    (fun K1 i =>
      (List.range 12).foldl
        (fun K2 j => fun a b =>
          if a = dofs.getD i 0 ∧ b = dofs.getD j 0 then K2 a b + kGlobal i j else K2 a b)
        K1)
    K

/-- Embeds assemble_global_stiffness (structure/stiffness.py): failed members
contribute nothing. -/
def assembleGlobalStiffnessQ (sq : ℚ → ℚ) (frame : FrameData) : ℕ → ℕ → ℚ :=
  frame.members.foldl
    (fun K m => if m.failed then K else addMemberK sq frame K m)
    (fun _ _ => 0)

/-- Single restrained-dof update of apply_boundary_conditions: zero the row
and the column, set the diagonal entry to 1. -/
def bcStep (K : ℕ → ℕ → ℚ) (gd : ℕ) : ℕ → ℕ → ℚ :=
  fun i j =>
    if i = gd ∧ j = gd then 1
    else if i = gd ∨ j = gd then 0
    else K i j

/-- Embeds apply_boundary_conditions (structure/stiffness.py): iterate bcStep
over every node's fixed dofs. -/
def applyBoundaryConditionsQ (K : ℕ → ℕ → ℚ) (frame : FrameData) : ℕ → ℕ → ℚ :=
  frame.nodes.foldl
    (fun K1 node =>
      node.fixed_dofs.foldl (fun K2 dof => bcStep K2 (node.id * 6 + dof)) K1)
    K

/-- Embeds _build_load_vector (solver/equilibrium.py): accumulate each load's
scaled magnitude at its global dof. -/
def buildLoadVectorQ (frame : FrameData) (load_factor : ℚ) : ℕ → ℚ :=
  frame.loads.foldl
    (fun F load => fun d =>
      if d = load.node_id * 6 + load.dof then F d + load.magnitude * load_factor else F d)
    (fun _ => 0)

/-- Embeds apply_boundary_conditions_to_force (solver/equilibrium.py): zero the
force entry at every restrained dof. -/
def applyBCForceQ (F : ℕ → ℚ) (frame : FrameData) : ℕ → ℚ :=
  frame.nodes.foldl
    (fun F1 node =>
      node.fixed_dofs.foldl
        (fun F2 dof => fun d => if d = node.id * 6 + dof then 0 else F2 d) F1)
    F

/-- Embeds _compute_member_state (solver/equilibrium.py): strain energy,
axial force and axial deformation of one member given the displacements. -/
def computeMemberStateQ (sq : ℚ → ℚ) (m : Member) (u : ℕ → ℚ) (frame : FrameData) :
    MemberState :=
  if m.failed then ⟨m.id, 0, 0, 0, true⟩
  else
    let i := m.node_start * 6
    let j := m.node_end * 6
    let uGlobal : ℕ → ℚ := fun k => if k < 6 then u (i + k) else u (j + (k - 6))
    let T := transformationQ sq m frame
    let kLocal := localStiffnessQ sq m frame
    let uLocal : ℕ → ℚ := fun a => dotQ 12 (T a) uGlobal
    let fLocal : ℕ → ℚ := fun a => dotQ 12 (kLocal a) uLocal
    let strain := (1 / 2 : ℚ) * dotQ 12 uLocal fLocal
    let ns := getNodeL frame m.node_start
    let ne := getNodeL frame m.node_end
    let L := memberLengthQ sq m frame
    let axis : ℕ → ℚ := fun k =>
      compQ (ne.x - ns.x, ne.y - ns.y, ne.z - ns.z) k / L
    let deformation := dotQ 3 (fun k => uGlobal (3 + k) - uGlobal k) axis
    ⟨m.id, max strain 0, fLocal 0, deformation, false⟩

/-- Embeds solve (solver/equilibrium.py): assemble, constrain, solve with the
external linear solver ss (np.linalg.solve with its lstsq fallback), and
collect per-member states.  total_energy is the sum of member strain energies. -/
def solveQ (sq : ℚ → ℚ) (ss : (ℕ → ℕ → ℚ) → (ℕ → ℚ) → (ℕ → ℚ))
    (frame : FrameData) (step : ℕ) (load_factor : ℚ) : EnergyState :=
  let K := applyBoundaryConditionsQ (assembleGlobalStiffnessQ sq frame) frame
  let F := applyBCForceQ (buildLoadVectorQ frame load_factor) frame
  let u := ss K F
  let states := frame.members.map (fun m => computeMemberStateQ sq m u frame)
  ⟨step, (states.map (fun ms => ms.strain_energy)).sum, states⟩

/-- Embeds _combined_stress (solver/failure.py): axial stress plus bending
stress with extreme-fiber distance c = sqrt(I/A). -/
def combinedStressQ (sq : ℚ → ℚ) (m : Member) (u : ℕ → ℚ) (frame : FrameData) : ℚ :=
  let i := m.node_start * 6
  let j := m.node_end * 6
  let uGlobal : ℕ → ℚ := fun k => if k < 6 then u (i + k) else u (j + (k - 6))
  let T := transformationQ sq m frame
  let kLocal := localStiffnessQ sq m frame
  let uLocal : ℕ → ℚ := fun a => dotQ 12 (T a) uGlobal
  let fLocal : ℕ → ℚ := fun a => dotQ 12 (kLocal a) uLocal
  let c := sq (m.Imom / m.A)
  let sigmaAxial := |fLocal 0| / m.A
  let mMax := max |fLocal 5| |fLocal 11|
  sigmaAxial + mMax * c / m.Imom

/-- Marks the first member carrying the given id as failed, embedding the
in-place mutation member.failed = True on the object _get_member returned. -/
def markFirst : List Member → ℕ → List Member
  | [], _ => []
  | m :: rest, mid =>
    if m.id = mid then { m with failed := true } :: rest else m :: markFirst rest mid

/-- Displacement vector recomputed inside check_and_apply_failures
(solver/failure.py re-solves the constrained system before checking stresses). -/
def displacementQ (sq : ℚ → ℚ) (ss : (ℕ → ℕ → ℚ) → (ℕ → ℚ) → (ℕ → ℚ))
    (frame : FrameData) : ℕ → ℚ :=
  let K := applyBoundaryConditionsQ (assembleGlobalStiffnessQ sq frame) frame
  let F := applyBCForceQ (buildLoadVectorQ frame 1) frame
  ss K F

/-- Loop body of check_and_apply_failures: walk the snapshot member states,
skip snapshot-failed ones, mark and record members whose combined stress
reaches yield.  The frame's member list is threaded as explicit state. -/
def checkFold (sq : ℚ → ℚ) (u : ℕ → ℚ) :
    List MemberState → FrameData → List ℕ → FrameData × List ℕ
  | [], fr, acc => (fr, acc)
  | ms :: rest, fr, acc =>
    if ms.failed then checkFold sq u rest fr acc
    else
      let m := getMemberL fr ms.member_id
      if m.sigma_y ≤ combinedStressQ sq m u fr then
        checkFold sq u rest { fr with members := markFirst fr.members ms.member_id }
          (acc ++ [ms.member_id])
      else checkFold sq u rest fr acc

/-- Embeds check_and_apply_failures (solver/failure.py): re-solve for the
displacements, then mark every snapshot-active member at or beyond yield,
returning the updated frame and the ids that newly failed, in snapshot order. -/
def checkAndApplyFailuresQ (sq : ℚ → ℚ) (ss : (ℕ → ℕ → ℚ) → (ℕ → ℚ) → (ℕ → ℚ))
    (frame : FrameData) (energy_state : EnergyState) : FrameData × List ℕ :=
  checkFold sq (displacementQ sq ss frame) energy_state.member_states frame []

/-- Embeds all_failed (solver/failure.py). -/
def allFailedQ (frame : FrameData) : Bool :=
  frame.members.all (fun m => m.failed)

/-- Embeds _axial_stiffness (solver/redistribution.py): EA over L. -/
def axialStiffnessQ (sq : ℚ → ℚ) (m : Member) (frame : FrameData) : ℚ :=
  m.E * m.A / memberLengthQ sq m frame

/-- Embeds _harmonic_mean (solver/redistribution.py). -/
def harmonicMeanQ (a b : ℚ) : ℚ :=
  if a = 0 ∨ b = 0 then 0 else 2 * a * b / (a + b)

/-- Members appended to the node's adjacency list in _build_coupling_matrix;
a member with both endpoints on the node is appended twice, as in the source. -/
def membersAtNode (ms : List Member) (nid : ℕ) : List Member :=
  ms.flatMap (fun m =>
    (if m.node_start = nid then [m] else []) ++ (if m.node_end = nid then [m] else []))

/-- Embeds _build_coupling_matrix (solver/redistribution.py): for every node,
every ordered pair of distinct members meeting there contributes the harmonic
mean of their axial stiffnesses; contributions accumulate, and addition being
commutative the dict iteration order of the source is immaterial. -/
def buildCouplingMatrixQ (sq : ℚ → ℚ) (frame : FrameData) (active_ids : List ℕ) :
    ℕ → ℕ → ℚ :=
  let activeMembers := frame.members.filter (fun m => m.id ∈ active_ids)
  let nodeIds := (activeMembers.flatMap (fun m => [m.node_start, m.node_end])).dedup
  fun i j =>
    (nodeIds.map (fun nid =>
      ((membersAtNode activeMembers nid).map (fun mi =>
        ((membersAtNode activeMembers nid).map (fun mj =>
          if mi.id ≠ mj.id ∧ active_ids.indexOf mi.id = i ∧ active_ids.indexOf mj.id = j
          then harmonicMeanQ (axialStiffnessQ sq mi frame) (axialStiffnessQ sq mj frame)
          else 0)).sum)).sum)).sum

/-- Ids of the snapshot-active members entering redistribution (the ids list
of redistribute in solver/redistribution.py). -/
def activeIdsQ (energy_state : EnergyState) : List ℕ :=
  (energy_state.member_states.filter (fun ms => !ms.failed)).map (fun ms => ms.member_id)

/-- Strain energies of the snapshot-active members entering redistribution
(the U vector of redistribute). -/
def activeUQ (energy_state : EnergyState) : List ℚ :=
  (energy_state.member_states.filter (fun ms => !ms.failed)).map
    (fun ms => ms.strain_energy)

/-- The dU vector of redistribute: alpha applied to U minus the row sums of
alpha times U, componentwise. -/
def dUQ (sq : ℚ → ℚ) (frame : FrameData) (energy_state : EnergyState) : List ℚ :=
  let ids := activeIdsQ energy_state
  let U := activeUQ energy_state
  let alpha := buildCouplingMatrixQ sq frame ids
  (List.range ids.length).map (fun i =>
    dotQ ids.length (alpha i) (fun j => U.getD j 0) -
      dotQ ids.length (alpha i) (fun _ => 1) * U.getD i 0)

/-- The clipped forward-Euler update U_new of redistribute. -/
def uNewQ (sq : ℚ → ℚ) (frame : FrameData) (energy_state : EnergyState) (dt : ℚ) :
    List ℚ :=
  (List.range (activeIdsQ energy_state).length).map (fun i =>
    max ((activeUQ energy_state).getD i 0 + dt * (dUQ sq frame energy_state).getD i 0) 0)

/-- Embeds redistribute (solver/redistribution.py): one forward-Euler step of
the coupling diffusion over the snapshot-active members, clipped at zero;
snapshot-failed members are left unchanged; total energy is recomputed. -/
def redistributeQ (sq : ℚ → ℚ) (frame : FrameData) (energy_state : EnergyState)
    (dt : ℚ) : EnergyState :=
  let newStates := energy_state.member_states.map (fun ms =>
    if ms.member_id ∈ activeIdsQ energy_state then
      { ms with strain_energy := (uNewQ sq frame energy_state dt).getD ((activeIdsQ energy_state).indexOf ms.member_id) 0 }
    else ms)
  ⟨energy_state.step, (newStates.map (fun ms => ms.strain_energy)).sum, newStates⟩

/-- Embeds _shannon_entropy (entropy/metrics.py): minus the sum of p log p over
the strictly positive entries, the natural logarithm passed in as lg. -/
def shannonEntropyQ (lg : ℚ → ℚ) (p : List ℚ) : ℚ :=
  -(((p.filter (fun x => 0 < x)).map (fun x => x * lg x)).sum)

/-- Embeds compute (entropy/metrics.py): the no-active-member branch returns
delta_entropy 0, the zero-total branch returns 0 minus previous_entropy, and
the main branch returns Shannon entropy of the normalized distribution. -/
def computeEntropyQ (lg : ℚ → ℚ) (energy_state : EnergyState) (previous_entropy : ℚ) :
    EntropyRecord :=
  let active := (energy_state.member_states.filter (fun ms => !ms.failed)).map
    (fun ms => (ms.member_id, ms.strain_energy))
  if active = [] then
    ⟨energy_state.step, 0, 0, []⟩
  else
    let total := (active.map (fun pr => pr.2)).sum
    if total = 0 then
      ⟨energy_state.step, 0, 0 - previous_entropy, active.map (fun pr => (pr.1, 0))⟩
    else
      let p := active.map (fun pr => (pr.1, pr.2 / total))
      let S := shannonEntropyQ lg (p.map (fun pr => pr.2))
      ⟨energy_state.step, S, S - previous_entropy, p⟩

/-- Embeds detect_collapse_threshold (entropy/localization.py): flag the first
record whose delta entropy is strictly below the threshold. -/
def detectCollapseThresholdQ : List EntropyRecord → ℚ → Bool × Option ℕ
  | [], _ => (false, none)
  | r :: rest, threshold =>
    if r.delta_entropy < threshold then (true, some r.step)
    else detectCollapseThresholdQ rest threshold

/-- Scan loop of detect_collapse_zscore: flag the first record whose z-score
falls strictly below the negated threshold. -/
def zscoreScan : List EntropyRecord → ℚ → ℚ → ℚ → Bool × Option ℕ
  | [], _, _, _ => (false, none)
  | r :: rest, mean, std, zt =>
    if (r.delta_entropy - mean) / std < -zt then (true, some r.step)
    else zscoreScan rest mean std zt

/-- Population mean of the delta entropies of a history. -/
def deltaMeanQ (history : List EntropyRecord) : ℚ :=
  (history.map (fun r => r.delta_entropy)).sum / (history.length : ℚ)

/-- Population variance of the delta entropies of a history; np.std is the
square root of this. -/
def deltaVarQ (history : List EntropyRecord) : ℚ :=
  ((history.map (fun r => r.delta_entropy)).map
    (fun d => (d - deltaMeanQ history) ^ 2)).sum / (history.length : ℚ)

/-- Embeds detect_collapse_zscore (entropy/localization.py): inactive below the
minimum history length, never flags at zero standard deviation, otherwise
scans for the first record beyond the z threshold. -/
def detectCollapseZscoreQ (sq : ℚ → ℚ) (history : List EntropyRecord)
    (z_threshold : ℚ) (min_history : ℕ) : Bool × Option ℕ :=
  if history.length < min_history then (false, none)
  else
    let mean := deltaMeanQ history
    let std := sq (deltaVarQ history)
    if std = 0 then (false, none)
    else zscoreScan history mean std z_threshold

/-- Embeds _detect (simulation/runner.py): dispatch on the method string, an
unrecognized method being a raised ValueError, embedded as Except.error. -/
def detectQ (sq : ℚ → ℚ) (entropy_history : List EntropyRecord) (method : String)
    (threshold zscore : ℚ) : Except String (Bool × Option ℕ) :=
  if method = "zscore" then
    .ok (detectCollapseZscoreQ sq entropy_history zscore 5)
  else if method = "threshold" then
    .ok (detectCollapseThresholdQ entropy_history threshold)
  else
    .error ("Unknown collapse detection method: " ++ method ++ ". Use zscore or threshold.")

/-- Loop of run (simulation/runner.py), one constructor per remaining fuel
unit; the frame, the step index, the previous entropy and the three history
accumulators are threaded explicitly.  Replacement of the last energy state
after redistribution is dropLast followed by an append, matching the source's
assignment to energy_history[-1]. -/
def runLoopQ (sq lg : ℚ → ℚ) (ss : (ℕ → ℕ → ℚ) → (ℕ → ℚ) → (ℕ → ℚ))
    (dt threshold zscore : ℚ) (method : String) :
    ℕ → FrameData → ℕ → ℚ → List EnergyState → List EntropyRecord → List ℕ →
    Except String (SimulationResult × FrameData)
  | 0, frame, _, _, eh, sh, fs =>
    .ok (⟨frame.name, eh, sh, false, none, fs⟩, frame)
  | fuel + 1, frame, step, previous_entropy, eh, sh, fs =>
    let energy_state := solveQ sq ss frame step 1
    let eh1 := eh ++ [energy_state]
    let entropy_record := computeEntropyQ lg energy_state previous_entropy
    let sh1 := sh ++ [entropy_record]
    match detectQ sq sh1 method threshold zscore with
    | .error e => .error e
    | .ok (true, collapse_step) =>
      .ok (⟨frame.name, eh1, sh1, true, collapse_step, fs⟩, frame)
    | .ok (false, _) =>
      let fn := checkAndApplyFailuresQ sq ss frame energy_state
      let fs1 := fs ++ fn.2
      if allFailedQ fn.1 then
        .ok (⟨fn.1.name, eh1, sh1, true, some step, fs1⟩, fn.1)
      else if fn.2 ≠ [] then
        let es2 := redistributeQ sq fn.1 energy_state dt
        runLoopQ sq lg ss dt threshold zscore method fuel fn.1 (step + 1)
          entropy_record.entropy (eh1.dropLast ++ [es2]) sh1 fs1
      else
        runLoopQ sq lg ss dt threshold zscore method fuel fn.1 (step + 1)
          entropy_record.entropy eh1 sh1 fs1

/-- Embeds run (simulation/runner.py): iterate the step loop for
range(max_steps) steps; a non-positive max_steps yields an empty range.
The mutated frame is returned alongside the SimulationResult. -/
def runQ (sq lg : ℚ → ℚ) (ss : (ℕ → ℕ → ℚ) → (ℕ → ℚ) → (ℕ → ℚ))
    (frame : FrameData) (max_steps : ℤ) (dt : ℚ) (method : String)
    (threshold zscore : ℚ) : Except String (SimulationResult × FrameData) :=
  runLoopQ sq lg ss dt threshold zscore method max_steps.toNat frame 0 0 [] [] []

/-- Frame state entering each step of the loop: step i of run sees the frame
produced by step i-1's failure marking. -/
def frameTrace (sq : ℚ → ℚ) (ss : (ℕ → ℕ → ℚ) → (ℕ → ℚ) → (ℕ → ℚ))
    (frame : FrameData) : ℕ → FrameData
  | 0 => frame
  | i + 1 =>
    let fr := frameTrace sq ss frame i
    (checkAndApplyFailuresQ sq ss fr (solveQ sq ss fr i 1)).1

/-- Pre-redistribution energy state computed by the equilibrium solve at each
step of the loop. -/
def preTrace (sq : ℚ → ℚ) (ss : (ℕ → ℕ → ℚ) → (ℕ → ℚ) → (ℕ → ℚ))
    (frame : FrameData) (i : ℕ) : EnergyState :=
  solveQ sq ss (frameTrace sq ss frame i) i 1

/-- Previous-entropy value entering each step: seeded at 0 and updated to the
entropy of the record computed from the pre-redistribution state. -/
def prevTrace (sq lg : ℚ → ℚ) (ss : (ℕ → ℕ → ℚ) → (ℕ → ℚ) → (ℕ → ℚ))
    (frame : FrameData) : ℕ → ℚ
  | 0 => 0
  | i + 1 =>
    (computeEntropyQ lg (preTrace sq ss frame i) (prevTrace sq lg ss frame i)).entropy

/-- Square-root instantiation agreeing with the real square root on every
radicand reached by the concrete frames used below (0, 1 and 4). -/
def sqrtQ (q : ℚ) : ℚ :=
  if q = 1 then 1 else if q = 4 then 2 else 0

/-- Trivial logarithm instantiation for concrete runs whose entropy values are
not at issue. -/
def logQzero : ℚ → ℚ := fun _ => 0

/-- Linear-solver instantiation returning the zero displacement field. -/
def solverZero : (ℕ → ℕ → ℚ) → (ℕ → ℚ) → ℕ → ℚ := fun _ _ _ => 0

/-- Displacement field pulling node 0 by minus one along x. -/
def uPull : ℕ → ℚ := fun i => if i = 0 then -1 else 0

/-- Displacement field stretching the chain at both ends: node 0 moves minus
one along x and node 2 plus one. -/
def uStretch : ℕ → ℚ := fun i => if i = 0 then -1 else if i = 12 then 1 else 0

/-- Linear-solver instantiation returning uPull regardless of the system. -/
def solverPullX : (ℕ → ℕ → ℚ) → (ℕ → ℚ) → ℕ → ℚ := fun _ _ => uPull

/-- Linear-solver instantiation returning uStretch regardless of the system. -/
def solverStretch : (ℕ → ℕ → ℚ) → (ℕ → ℚ) → ℕ → ℚ := fun _ _ => uStretch

/-- Unit-property material with a high yield stress. -/
def matTough : Material := ⟨"tough", 1, 1, 1, 1000, 1⟩

/-- Unit-property material yielding at one half. -/
def matWeak : Material := ⟨"weak", 1, 1, 1, 1 / 2, 1⟩

/-- Unit-property material yielding at one. -/
def matYieldOne : Material := ⟨"yone", 1, 1, 1, 1, 1⟩

/-- Free node on the x axis. -/
def nodeAt (i : ℕ) (x : ℚ) : Node := ⟨i, x, 0, 0, []⟩

/-- Two-member colinear frame whose first listed member has the larger id. -/
def frameC3 : FrameData :=
  ⟨"c3", [nodeAt 0 0, nodeAt 1 1, nodeAt 2 2],
    [⟨2, 0, 1, matYieldOne, false⟩, ⟨1, 1, 2, matYieldOne, false⟩], []⟩

/-- Two-member colinear frame with one weak and one tough member. -/
def frameC4 : FrameData :=
  ⟨"c4", [nodeAt 0 0, nodeAt 1 1, nodeAt 2 2],
    [⟨0, 0, 1, matWeak, false⟩, ⟨1, 1, 2, matTough, false⟩], []⟩

/-- Single-member frame whose member is already failed. -/
def frameDone : FrameData :=
  ⟨"done", [nodeAt 0 0, nodeAt 1 1], [⟨0, 0, 1, matTough, true⟩], []⟩

/-- Single-member frame with a weak, initially intact member. -/
def frameX : FrameData :=
  ⟨"x", [nodeAt 0 0, nodeAt 1 1], [⟨0, 0, 1, matWeak, false⟩], []⟩

/-- C2 (amended): whenever the active members' total strain energy is zero the
entropy computation returns S = 0 without error; delta entropy is
0 - previous_S when at least one active member remains, but the source's
no-active-member branch returns delta entropy 0 instead of 0 - previous_S. -/
theorem c2_zero_energy_amended (lg : ℚ → ℚ) (es : EnergyState) (prevS : ℚ)
    (h : (((es.member_states.filter (fun ms => !ms.failed)).map
      (fun ms => ms.strain_energy)).sum = 0)) :
    (computeEntropyQ lg es prevS).entropy = 0 ∧
    (computeEntropyQ lg es prevS).delta_entropy =
      (if es.member_states.filter (fun ms => !ms.failed) = [] then 0 else 0 - prevS) := by
  by_cases hempty : es.member_states.filter (fun ms => !ms.failed) = []
  · simp [computeEntropyQ, hempty]
  · have hmap : (es.member_states.filter (fun ms => !ms.failed)).map
        (fun ms => (ms.member_id, ms.strain_energy)) ≠ [] := by
      simpa using hempty
    have htot : (List.map ((fun pr => pr.2) ∘ fun ms => ((ms.member_id : ℕ), ms.strain_energy))
        (es.member_states.filter (fun ms => !ms.failed))).sum = (0 : ℚ) := by
      simpa [Function.comp] using h
    simp [computeEntropyQ, hmap, htot, hempty]

/-- Witness for C2: a state with one active member of zero energy and previous
entropy 5 takes the zero-total branch with delta entropy minus 5. -/
theorem c2_zero_energy_witness :
    (((((⟨0, 0, [⟨1, 0, 0, 0, false⟩, ⟨2, 0, 0, 0, true⟩]⟩ : EnergyState).member_states.filter
      (fun ms => !ms.failed)).map (fun ms => ms.strain_energy)).sum = 0)) ∧
    ((computeEntropyQ logQzero ⟨0, 0, [⟨1, 0, 0, 0, false⟩, ⟨2, 0, 0, 0, true⟩]⟩ 5).entropy = 0 ∧
    (computeEntropyQ logQzero ⟨0, 0, [⟨1, 0, 0, 0, false⟩, ⟨2, 0, 0, 0, true⟩]⟩ 5).delta_entropy =
      (if (⟨0, 0, [⟨1, 0, 0, 0, false⟩, ⟨2, 0, 0, 0, true⟩]⟩ : EnergyState).member_states.filter
        (fun ms => !ms.failed) = [] then 0 else 0 - 5)) :=
  ⟨by simp, c2_zero_energy_amended logQzero ⟨0, 0, [⟨1, 0, 0, 0, false⟩, ⟨2, 0, 0, 0, true⟩]⟩ 5
    (by simp)⟩

/-- Counterexample for C2 as stated: with every member failed and previous
entropy 1, the source returns delta entropy 0, not 0 - 1. -/
theorem c2_zero_energy_counterexample :
    (computeEntropyQ logQzero ⟨3, 0, [⟨7, 0, 0, 0, true⟩]⟩ 1).delta_entropy ≠ 0 - 1 := by
  simp [computeEntropyQ]

/-- C5 (amended): with at least one step to run, an unrecognized collapse
method raises the configuration error on the first step's detection dispatch
and no SimulationResult is produced. -/
theorem c5_unknown_method_amended (sq lg : ℚ → ℚ)
    (ss : (ℕ → ℕ → ℚ) → (ℕ → ℚ) → ℕ → ℚ) (frame : FrameData) (max_steps : ℤ)
    (dt threshold zscore : ℚ) (method : String) (h1 : 1 ≤ max_steps)
    (h2 : method ≠ "zscore") (h3 : method ≠ "threshold") :
    runQ sq lg ss frame max_steps dt method threshold zscore =
      .error ("Unknown collapse detection method: " ++ method ++
        ". Use zscore or threshold.") := by
  obtain ⟨k, hk⟩ : ∃ k, max_steps.toNat = k + 1 := ⟨max_steps.toNat - 1, by omega⟩
  unfold runQ
  rw [hk]
  simp only [runLoopQ, detectQ, if_neg h2, if_neg h3]

/-- Witness for C5 (amended) at a concrete frame and method string. -/
theorem c5_unknown_method_witness :
    ((1 : ℤ) ≤ 1 ∧ "bogus" ≠ "zscore" ∧ "bogus" ≠ "threshold") ∧
    runQ sqrtQ logQzero solverZero frameX 1 1 "bogus" (-1 / 2) 3 =
      .error ("Unknown collapse detection method: " ++ "bogus" ++
        ". Use zscore or threshold.") :=
  ⟨⟨by decide, by decide, by decide⟩,
    c5_unknown_method_amended sqrtQ logQzero solverZero frameX 1 1 (-1 / 2) 3 "bogus"
      (by decide) (by decide) (by decide)⟩

/-- Counterexample for C5 as stated: with max_steps 0 the loop body never runs,
so an unrecognized method yields a SimulationResult and no error. -/
theorem c5_unknown_method_counterexample :
    runQ sqrtQ logQzero solverZero frameX 0 1 "bogus" (-1 / 2) 3 =
      .ok (⟨"x", [], [], false, none, []⟩, frameX) := rfl

/-- C6 (amended): a non-positive max_steps is not rejected; the loop body
never executes and an empty SimulationResult is returned without error. -/
theorem c6_nonpositive_steps_amended (sq lg : ℚ → ℚ)
    (ss : (ℕ → ℕ → ℚ) → (ℕ → ℚ) → ℕ → ℚ) (frame : FrameData) (max_steps : ℤ)
    (dt threshold zscore : ℚ) (method : String) (h : max_steps ≤ 0) :
    runQ sq lg ss frame max_steps dt method threshold zscore =
      .ok (⟨frame.name, [], [], false, none, []⟩, frame) := by
  unfold runQ
  have hz : max_steps.toNat = 0 := by omega
  rw [hz]
  rfl

/-- Witness for C6 (amended) at max_steps minus two. -/
theorem c6_nonpositive_steps_witness :
    ((-2 : ℤ) ≤ 0) ∧
    runQ sqrtQ logQzero solverZero frameX (-2) 1 "zscore" (-1 / 2) 3 =
      .ok (⟨"x", [], [], false, none, []⟩, frameX) :=
  ⟨by decide, c6_nonpositive_steps_amended sqrtQ logQzero solverZero frameX (-2) 1 (-1 / 2) 3
    "zscore" (by decide)⟩

/-- Counterexample for C6 as stated: max_steps minus three returns an ordinary
empty SimulationResult, not a configuration error. -/
theorem c6_nonpositive_steps_counterexample :
    runQ sqrtQ logQzero solverZero frameX (-3) 1 "zscore" (-1 / 2) 3 =
      .ok (⟨"x", [], [], false, none, []⟩, frameX) := rfl

/-- Shape established at a restrained dof: unit diagonal, zero row and column. -/
def bcShape (K : ℕ → ℕ → ℚ) (d : ℕ) : Prop :=
  K d d = 1 ∧ (∀ j, j ≠ d → K d j = 0) ∧ (∀ i, i ≠ d → K i d = 0)

/-- One bcStep establishes the shape at its own dof. -/
lemma bcStep_shape_self (K : ℕ → ℕ → ℚ) (gd : ℕ) : bcShape (bcStep K gd) gd := by
  refine ⟨by simp [bcStep], fun j hj => ?_, fun i hi => ?_⟩
  · simp [bcStep, hj, Ne.symm hj]
  · simp [bcStep, hi, Ne.symm hi]

/-- One bcStep preserves the shape at any other dof. -/
lemma bcStep_shape_preserve (K : ℕ → ℕ → ℚ) (gd d : ℕ) (h : bcShape K d) :
    bcShape (bcStep K gd) d := by
  by_cases hgd : gd = d
  · subst hgd
    exact bcStep_shape_self K gd
  have hdg : d ≠ gd := fun hh => hgd hh.symm
  refine ⟨?_, fun j hj => ?_, fun i hi => ?_⟩
  · simp [bcStep, hdg, h.1]
  · by_cases hjg : j = gd
    · simp [bcStep, hjg, hdg]
    · simp [bcStep, hdg, hjg, h.2.1 j hj]
  · by_cases hig : i = gd
    · simp [bcStep, hig, hdg]
    · simp [bcStep, hig, hdg, h.2.2 i hi]

/-- Folding bcStep over a dof list establishes the shape at every listed dof
and preserves any shape already present. -/
lemma bcFold_shape (base : ℕ) :
    ∀ (l : List ℕ) (K : ℕ → ℕ → ℚ) (d : ℕ),
      ((∃ dof ∈ l, base + dof = d) ∨ bcShape K d) →
      bcShape (l.foldl (fun K2 dof => bcStep K2 (base + dof)) K) d := by
  intro l
  induction l with
  | nil =>
    intro K d h
    rcases h with ⟨dof, hin, _⟩ | h
    · exact absurd hin (List.not_mem_nil dof)
    · exact h
  | cons a l ih =>
    intro K d h
    simp only [List.foldl_cons]
    rcases h with ⟨dof, hin, hd⟩ | h
    · rcases List.mem_cons.mp hin with rfl | hmem
      · exact ih _ _ (Or.inr (hd ▸ bcStep_shape_self K (base + dof)))
      · exact ih _ _ (Or.inl ⟨dof, hmem, hd⟩)
    · exact ih _ _ (Or.inr (bcStep_shape_preserve K (base + a) d h))

/-- Iterating the per-node boundary-condition folds establishes the shape at
every restrained dof of every node, and preserves shapes already present. -/
lemma bcOuter_shape :
    ∀ (nodes : List Node) (K : ℕ → ℕ → ℚ) (d : ℕ),
      ((∃ nd ∈ nodes, ∃ dof ∈ nd.fixed_dofs, nd.id * 6 + dof = d) ∨ bcShape K d) →
      bcShape (nodes.foldl
        (fun K1 node => node.fixed_dofs.foldl
          (fun K2 dof => bcStep K2 (node.id * 6 + dof)) K1) K) d := by
  intro nodes
  induction nodes with
  | nil =>
    intro K d h
    rcases h with ⟨nd, hin, _⟩ | h
    · exact absurd hin (List.not_mem_nil nd)
    · exact h
  | cons a nodes ih =>
    intro K d h
    simp only [List.foldl_cons]
    rcases h with ⟨nd, hin, dof, hdof, hd⟩ | h
    · rcases List.mem_cons.mp hin with rfl | hmem
      · exact ih _ _ (Or.inr (bcFold_shape (nd.id * 6) _ _ _ (Or.inl ⟨dof, hdof, hd⟩)))
      · exact ih _ _ (Or.inl ⟨nd, hmem, dof, hdof, hd⟩)
    · exact ih _ _ (Or.inr (bcFold_shape (a.id * 6) _ _ _ (Or.inr h)))

/-- Folding the force-zeroing step over a dof list zeroes every listed entry
and preserves entries already zero. -/
lemma forceFold_zero (base : ℕ) :
    ∀ (l : List ℕ) (F : ℕ → ℚ) (d : ℕ),
      ((∃ dof ∈ l, base + dof = d) ∨ F d = 0) →
      (l.foldl (fun F2 dof => fun x => if x = base + dof then 0 else F2 x) F) d = 0 := by
  intro l
  induction l with
  | nil =>
    intro F d h
    rcases h with ⟨dof, hin, _⟩ | h
    · exact absurd hin (List.not_mem_nil dof)
    · exact h
  | cons a l ih =>
    intro F d h
    simp only [List.foldl_cons]
    rcases h with ⟨dof, hin, hd⟩ | h
    · rcases List.mem_cons.mp hin with rfl | hmem
      · refine ih _ _ (Or.inr ?_)
        simp [hd]
      · exact ih _ _ (Or.inl ⟨dof, hmem, hd⟩)
    · refine ih _ _ (Or.inr ?_)
      by_cases hda : d = base + a
      · simp [hda]
      · simp [hda, h]

/-- Iterating the per-node force folds zeroes every restrained entry. -/
lemma forceOuter_zero :
    ∀ (nodes : List Node) (F : ℕ → ℚ) (d : ℕ),
      ((∃ nd ∈ nodes, ∃ dof ∈ nd.fixed_dofs, nd.id * 6 + dof = d) ∨ F d = 0) →
      (nodes.foldl
        (fun F1 node => node.fixed_dofs.foldl
          (fun F2 dof => fun x => if x = node.id * 6 + dof then 0 else F2 x) F1) F) d = 0 := by
  intro nodes
  induction nodes with
  | nil =>
    intro F d h
    rcases h with ⟨nd, hin, _⟩ | h
    · exact absurd hin (List.not_mem_nil nd)
    · exact h
  | cons a nodes ih =>
    intro F d h
    simp only [List.foldl_cons]
    rcases h with ⟨nd, hin, dof, hdof, hd⟩ | h
    · rcases List.mem_cons.mp hin with rfl | hmem
      · exact ih _ _ (Or.inr (forceFold_zero (nd.id * 6) _ _ _ (Or.inl ⟨dof, hdof, hd⟩)))
      · exact ih _ _ (Or.inl ⟨nd, hmem, dof, hdof, hd⟩)
    · exact ih _ _ (Or.inr (forceFold_zero (a.id * 6) _ _ _ (Or.inr h)))

/-- C8: after apply_boundary_conditions and apply_boundary_conditions_to_force,
every restrained dof d of every node has row d and column d of the stiffness
matrix zero except a unit diagonal, and a zero force entry — simultaneously
for all restrained dofs, whatever their number and processing order. -/
theorem c8_boundary_conditions (K : ℕ → ℕ → ℚ) (F : ℕ → ℚ) (frame : FrameData)
    (nd : Node) (dof : ℕ) (hnd : nd ∈ frame.nodes) (hdof : dof ∈ nd.fixed_dofs) :
    applyBoundaryConditionsQ K frame (nd.id * 6 + dof) (nd.id * 6 + dof) = 1 ∧
    (∀ j, j ≠ nd.id * 6 + dof →
      applyBoundaryConditionsQ K frame (nd.id * 6 + dof) j = 0) ∧
    (∀ i, i ≠ nd.id * 6 + dof →
      applyBoundaryConditionsQ K frame i (nd.id * 6 + dof) = 0) ∧
    applyBCForceQ F frame (nd.id * 6 + dof) = 0 := by
  have hK : bcShape (applyBoundaryConditionsQ K frame) (nd.id * 6 + dof) :=
    bcOuter_shape frame.nodes K _ (Or.inl ⟨nd, hnd, dof, hdof, rfl⟩)
  exact ⟨hK.1, hK.2.1, hK.2.2,
    forceOuter_zero frame.nodes F _ (Or.inl ⟨nd, hnd, dof, hdof, rfl⟩)⟩

/-- Witness for C8 at a concrete frame restraining dofs 0 and 1 of node 0 and
dof 2 of node 1, with nonzero input matrix and force vector. -/
theorem c8_boundary_conditions_witness :
    ((⟨1, 0, 0, 0, [2]⟩ : Node) ∈
      (⟨"bc", [⟨0, 0, 0, 0, [0, 1]⟩, ⟨1, 0, 0, 0, [2]⟩], [], []⟩ : FrameData).nodes ∧
      2 ∈ (⟨1, 0, 0, 0, [2]⟩ : Node).fixed_dofs) ∧
    (applyBoundaryConditionsQ (fun i j => (i : ℚ) + j + 5)
        ⟨"bc", [⟨0, 0, 0, 0, [0, 1]⟩, ⟨1, 0, 0, 0, [2]⟩], [], []⟩ 8 8 = 1 ∧
      (∀ j, j ≠ 8 → applyBoundaryConditionsQ (fun i j => (i : ℚ) + j + 5)
        ⟨"bc", [⟨0, 0, 0, 0, [0, 1]⟩, ⟨1, 0, 0, 0, [2]⟩], [], []⟩ 8 j = 0) ∧
      (∀ i, i ≠ 8 → applyBoundaryConditionsQ (fun i j => (i : ℚ) + j + 5)
        ⟨"bc", [⟨0, 0, 0, 0, [0, 1]⟩, ⟨1, 0, 0, 0, [2]⟩], [], []⟩ i 8 = 0) ∧
      applyBCForceQ (fun d => (d : ℚ) + 7)
        ⟨"bc", [⟨0, 0, 0, 0, [0, 1]⟩, ⟨1, 0, 0, 0, [2]⟩], [], []⟩ 8 = 0) :=
  ⟨⟨by decide, by decide⟩,
    c8_boundary_conditions (fun i j => (i : ℚ) + j + 5) (fun d => (d : ℚ) + 7)
      ⟨"bc", [⟨0, 0, 0, 0, [0, 1]⟩, ⟨1, 0, 0, 0, [2]⟩], [], []⟩ ⟨1, 0, 0, 0, [2]⟩ 2
      (by decide) (by decide)⟩

/-- When no record is beyond the z threshold the scan returns no flag. -/
lemma zscoreScan_none :
    ∀ (l : List EntropyRecord) (mean std zt : ℚ),
      (∀ r ∈ l, ¬((r.delta_entropy - mean) / std < -zt)) →
      zscoreScan l mean std zt = (false, none) := by
  intro l
  induction l with
  | nil => intro mean std zt _; rfl
  | cons r rest ih =>
    intro mean std zt h
    have hr := h r (List.mem_cons_self r rest)
    simp only [zscoreScan, if_neg hr]
    exact ih mean std zt (fun x hx => h x (List.mem_cons_of_mem r hx))

/-- The scan flags the earliest record beyond the z threshold. -/
lemma zscoreScan_first :
    ∀ (l : List EntropyRecord) (mean std zt : ℚ) (i : ℕ) (h : i < l.length),
      ((l.get ⟨i, h⟩).delta_entropy - mean) / std < -zt →
      (∀ j (hj : j < i),
        ¬(((l.get ⟨j, hj.trans h⟩).delta_entropy - mean) / std < -zt)) →
      zscoreScan l mean std zt = (true, some (l.get ⟨i, h⟩).step) := by
  intro l
  induction l with
  | nil => intro mean std zt i h; exact absurd h (by simp)
  | cons r rest ih =>
    intro mean std zt i h hi hmin
    cases i with
    | zero =>
      simp only [List.get] at hi ⊢
      simp only [zscoreScan, if_pos hi]
    | succ i =>
      have hr : ¬((r.delta_entropy - mean) / std < -zt) := hmin 0 (Nat.succ_pos i)
      simp only [zscoreScan, if_neg hr]
      exact ih mean std zt i (Nat.lt_of_succ_lt_succ h) hi
        (fun j hj => hmin (j + 1) (Nat.succ_lt_succ hj))

/-- C7: the z-score detector stays silent below the minimum history length,
never flags when the standard deviation sq(variance) is exactly zero, and
otherwise flags exactly the earliest record whose z-score over the mean and
standard deviation of the entire accumulated history falls below the negated
threshold. -/
theorem c7_zscore_detector (sq : ℚ → ℚ) (history : List EntropyRecord)
    (zt : ℚ) (minH : ℕ) :
    (history.length < minH → detectCollapseZscoreQ sq history zt minH = (false, none)) ∧
    (sq (deltaVarQ history) = 0 →
      detectCollapseZscoreQ sq history zt minH = (false, none)) ∧
    (minH ≤ history.length → sq (deltaVarQ history) ≠ 0 →
      ((∀ r ∈ history,
          ¬((r.delta_entropy - deltaMeanQ history) / sq (deltaVarQ history) < -zt)) →
        detectCollapseZscoreQ sq history zt minH = (false, none)) ∧
      (∀ i (h : i < history.length),
        ((history.get ⟨i, h⟩).delta_entropy - deltaMeanQ history) /
            sq (deltaVarQ history) < -zt →
        (∀ j (hj : j < i),
          ¬(((history.get ⟨j, hj.trans h⟩).delta_entropy - deltaMeanQ history) /
            sq (deltaVarQ history) < -zt)) →
        detectCollapseZscoreQ sq history zt minH =
          (true, some (history.get ⟨i, h⟩).step))) := by
  refine ⟨fun hshort => ?_, fun hstd => ?_, fun hlen hstd => ⟨fun hnone => ?_, ?_⟩⟩
  · simp only [detectCollapseZscoreQ, if_pos hshort]
  · by_cases hshort : history.length < minH
    · simp only [detectCollapseZscoreQ, if_pos hshort]
    · simp only [detectCollapseZscoreQ, if_neg hshort, if_pos hstd]
  · simp only [detectCollapseZscoreQ, if_neg (not_lt.mpr hlen), if_neg hstd]
    exact zscoreScan_none history _ _ _ hnone
  · intro i h hi hmin
    simp only [detectCollapseZscoreQ, if_neg (not_lt.mpr hlen), if_neg hstd]
    exact zscoreScan_first history _ _ _ i h hi hmin

/-- Witness for C7: a three-record history is below the default minimum
history length five, so the detector returns no flag. -/
theorem c7_zscore_detector_witness :
    (([⟨0, 0, 0, []⟩, ⟨1, 0, 0, []⟩, ⟨2, 0, 0, []⟩] : List EntropyRecord).length < 5) ∧
    detectCollapseZscoreQ logQzero [⟨0, 0, 0, []⟩, ⟨1, 0, 0, []⟩, ⟨2, 0, 0, []⟩] 3 5 =
      (false, none) :=
  ⟨by decide,
    (c7_zscore_detector logQzero [⟨0, 0, 0, []⟩, ⟨1, 0, 0, []⟩, ⟨2, 0, 0, []⟩] 3 5).1
      (by decide)⟩

/-- Relation between the frame entering check_and_apply_failures and the frame
during the marking loop: geometry, loads and name are untouched, and every
member lookup returns the original member, at most with its failed flag set. -/
def markedFrom (fr0 fr : FrameData) : Prop :=
  fr.name = fr0.name ∧ fr.nodes = fr0.nodes ∧ fr.loads = fr0.loads ∧
  ∀ mid, getMemberL fr mid = getMemberL fr0 mid ∨
    getMemberL fr mid = { getMemberL fr0 mid with failed := true }

/-- The marking relation is reflexive. -/
lemma markedFrom_refl (fr : FrameData) : markedFrom fr fr :=
  ⟨rfl, rfl, rfl, fun _ => Or.inl rfl⟩

/-- markFirst preserves the id sequence of a member list. -/
lemma markFirst_map_id (l : List Member) (mid : ℕ) :
    (markFirst l mid).map (fun m => m.id) = l.map (fun m => m.id) := by
  induction l with
  | nil => rfl
  | cons m rest ih =>
    by_cases h : m.id = mid
    · simp [markFirst, h]
    · simp [markFirst, h, ih]

/-- Finding a member with a different id is unaffected by markFirst. -/
lemma find?_markFirst_ne (l : List Member) (mid0 mid : ℕ) (h : mid ≠ mid0) :
    (markFirst l mid0).find? (fun m => m.id = mid) = l.find? (fun m => m.id = mid) := by
  have h' : ¬(mid0 = mid) := fun hc => h hc.symm
  induction l with
  | nil => rfl
  | cons m rest ih =>
    by_cases h0 : m.id = mid0
    · have hm : ¬(m.id = mid) := fun hc => h (hc ▸ h0 ▸ rfl)
      simp [markFirst, h0, List.find?, hm, h']
    · by_cases hm : m.id = mid
      · simp [markFirst, h0, List.find?, hm, h, h']
      · simp [markFirst, h0, List.find?, hm, ih]

/-- Finding the marked id after markFirst returns the original member with its
failed flag set. -/
lemma find?_markFirst_self (l : List Member) (mid : ℕ) :
    (markFirst l mid).find? (fun m => m.id = mid) =
      (l.find? (fun m => m.id = mid)).map (fun m => { m with failed := true }) := by
  induction l with
  | nil => rfl
  | cons m rest ih =>
    by_cases h : m.id = mid
    · simp [markFirst, h, List.find?]
    · simp [markFirst, h, List.find?, ih]

/-- The marking relation is preserved by one markFirst application. -/
lemma markedFrom_markFirst (fr0 fr : FrameData) (h : markedFrom fr0 fr) (mid0 : ℕ) :
    markedFrom fr0 { fr with members := markFirst fr.members mid0 } := by
  obtain ⟨hname, hnodes, hloads, hmem⟩ := h
  refine ⟨hname, hnodes, hloads, fun mid => ?_⟩
  by_cases hm : mid = mid0
  · subst hm
    have hc := hmem mid
    unfold getMemberL at hc ⊢
    simp only [find?_markFirst_self fr.members mid]
    rcases hfd : fr.members.find? (fun m => m.id = mid) with _ | m
    · rw [hfd] at hc ⊢
      simp only [Option.map_none', Option.getD_none] at hc ⊢
      exact hc
    · rw [hfd] at hc ⊢
      simp only [Option.getD_some] at hc
      simp only [Option.map_some', Option.getD_some]
      rcases hc with hc | hc
      · exact Or.inr (by rw [hc])
      · exact Or.inr (by rw [hc])
  · have hfind := find?_markFirst_ne fr.members mid0 mid hm
    unfold getMemberL
    simp only [hfind]
    exact hmem mid

/-- Node lookup depends only on the node list. -/
lemma getNodeL_congr (fr0 fr : FrameData) (h : fr.nodes = fr0.nodes) :
    getNodeL fr = getNodeL fr0 := by
  funext nid
  unfold getNodeL
  rw [h]

/-- Member length depends only on the node list. -/
lemma memberLengthQ_congr (sq : ℚ → ℚ) (m : Member) (fr0 fr : FrameData)
    (h : fr.nodes = fr0.nodes) :
    memberLengthQ sq m fr = memberLengthQ sq m fr0 := by
  unfold memberLengthQ
  rw [getNodeL_congr fr0 fr h]

/-- The local stiffness block depends only on the node list. -/
lemma localStiffnessQ_congr (sq : ℚ → ℚ) (m : Member) (fr0 fr : FrameData)
    (h : fr.nodes = fr0.nodes) :
    localStiffnessQ sq m fr = localStiffnessQ sq m fr0 := by
  unfold localStiffnessQ
  rw [memberLengthQ_congr sq m fr0 fr h]

/-- The transformation matrix depends only on the node list. -/
lemma transformationQ_congr (sq : ℚ → ℚ) (m : Member) (fr0 fr : FrameData)
    (h : fr.nodes = fr0.nodes) :
    transformationQ sq m fr = transformationQ sq m fr0 := by
  unfold transformationQ
  rw [getNodeL_congr fr0 fr h]

/-- The combined stress depends only on the node list of the frame. -/
lemma combinedStressQ_frame_congr (sq : ℚ → ℚ) (m : Member) (u : ℕ → ℚ)
    (fr0 fr : FrameData) (h : fr.nodes = fr0.nodes) :
    combinedStressQ sq m u fr = combinedStressQ sq m u fr0 := by
  unfold combinedStressQ
  rw [transformationQ_congr sq m fr0 fr h, localStiffnessQ_congr sq m fr0 fr h]

/-- The combined stress ignores the member's failed flag. -/
lemma combinedStressQ_mark (sq : ℚ → ℚ) (m : Member) (u : ℕ → ℚ) (fr : FrameData) :
    combinedStressQ sq { m with failed := true } u fr = combinedStressQ sq m u fr := rfl

/-- The yield test evaluated during the marking loop agrees with the yield
test against the original frame. -/
lemma stressTest_congr (sq : ℚ → ℚ) (u : ℕ → ℚ) (fr0 fr : FrameData)
    (h : markedFrom fr0 fr) (mid : ℕ) :
    ((getMemberL fr mid).sigma_y ≤ combinedStressQ sq (getMemberL fr mid) u fr ↔
      (getMemberL fr0 mid).sigma_y ≤ combinedStressQ sq (getMemberL fr0 mid) u fr0) := by
  obtain ⟨_, hnodes, _, hmem⟩ := h
  rcases hmem mid with hc | hc <;> rw [hc]
  · rw [combinedStressQ_frame_congr sq _ u fr0 fr hnodes]
  · rw [combinedStressQ_mark, combinedStressQ_frame_congr sq _ u fr0 fr hnodes]
    constructor <;> exact fun hh => hh

/-- Yield test of a snapshot member state against the original frame: the
member is snapshot-active and its combined stress reaches its yield stress. -/
def failTest (sq : ℚ → ℚ) (u : ℕ → ℚ) (fr0 : FrameData) (ms : MemberState) : Bool :=
  !ms.failed && decide ((getMemberL fr0 ms.member_id).sigma_y ≤
    combinedStressQ sq (getMemberL fr0 ms.member_id) u fr0)

/-- Characterization of the marking loop: the newly-failed list is the
snapshot-order filter of the states by the yield test, and the resulting
frame is the input frame with markFirst folded over those ids. -/
lemma checkFold_spec (sq : ℚ → ℚ) (u : ℕ → ℚ) (fr0 : FrameData) :
    ∀ (states : List MemberState) (fr : FrameData) (acc : List ℕ),
      markedFrom fr0 fr →
      (checkFold sq u states fr acc).2 =
        acc ++ (states.filter (failTest sq u fr0)).map (fun ms => ms.member_id) ∧
      (checkFold sq u states fr acc).1 =
        { fr with members := List.foldl markFirst fr.members ((states.filter (failTest sq u fr0)).map (fun ms => ms.member_id)) } := by
  intro states
  induction states with
  | nil => intro fr acc _; exact ⟨by simp [checkFold], by simp [checkFold]⟩
  | cons ms rest ih =>
    intro fr acc h
    cases hfb : ms.failed with
    | true =>
      have ht : failTest sq u fr0 ms = false := by simp [failTest, hfb]
      obtain ⟨e2, e1⟩ := ih fr acc h
      refine ⟨?_, ?_⟩
      · simp only [checkFold, hfb, if_true, List.filter_cons, ht]
        simpa using e2
      · simp only [checkFold, hfb, if_true, List.filter_cons, ht]
        simpa using e1
    | false =>
      by_cases hc : (getMemberL fr ms.member_id).sigma_y ≤
          combinedStressQ sq (getMemberL fr ms.member_id) u fr
      · have ht : failTest sq u fr0 ms = true := by
          simp only [failTest, hfb, Bool.not_false, Bool.true_and, decide_eq_true_eq]
          exact (stressTest_congr sq u fr0 fr h ms.member_id).mp hc
        have h1 : markedFrom fr0 { fr with members := markFirst fr.members ms.member_id } :=
          markedFrom_markFirst fr0 fr h ms.member_id
        obtain ⟨e2, e1⟩ := ih { fr with members := markFirst fr.members ms.member_id }
          (acc ++ [ms.member_id]) h1
        refine ⟨?_, ?_⟩
        · simp only [checkFold, hfb, Bool.false_eq_true, if_false, if_pos hc]
          rw [e2, List.filter_cons, ht]
          simp [List.append_assoc]
        · simp only [checkFold, hfb, Bool.false_eq_true, if_false, if_pos hc]
          rw [e1, List.filter_cons, ht]
          simp [List.foldl_cons]
      · have ht : failTest sq u fr0 ms = false := by
          simp only [failTest, hfb, Bool.not_false, Bool.true_and]
          simpa using fun hcc => hc ((stressTest_congr sq u fr0 fr h ms.member_id).mpr hcc)
        obtain ⟨e2, e1⟩ := ih fr acc h
        refine ⟨?_, ?_⟩
        · simp only [checkFold, hfb, Bool.false_eq_true, if_false, if_neg hc,
            List.filter_cons, ht]
          simpa using e2
        · simp only [checkFold, hfb, Bool.false_eq_true, if_false, if_neg hc,
            List.filter_cons, ht]
          simpa using e1

/-- Concrete combined stress of the first frameC3 member under uStretch. -/
lemma stressC3a :
    combinedStressQ sqrtQ (⟨2, 0, 1, matYieldOne, false⟩ : Member) uStretch frameC3 = 1 := by
  norm_num [combinedStressQ, transformationQ, localStiffnessQ, memberLengthQ, getNodeL,
    frameC3, nodeAt, matYieldOne, dotQ, compQ, crossQ, normQ, smulInvQ, sqrtQ, uStretch,
    Member.A, Member.Imom, Member.E, List.find?, defaultNode]

/-- Concrete combined stress of the second frameC3 member under uStretch. -/
lemma stressC3b :
    combinedStressQ sqrtQ (⟨1, 1, 2, matYieldOne, false⟩ : Member) uStretch frameC3 = 1 := by
  norm_num [combinedStressQ, transformationQ, localStiffnessQ, memberLengthQ, getNodeL,
    frameC3, nodeAt, matYieldOne, dotQ, compQ, crossQ, normQ, smulInvQ, sqrtQ, uStretch,
    Member.A, Member.Imom, Member.E, List.find?, defaultNode]

/-- Mapping the conditional marker over a list without the id is the identity. -/
lemma map_markIf_of_not_mem (l : List Member) (mid : ℕ) (h : ∀ m ∈ l, m.id ≠ mid) :
    l.map (fun m => if m.id = mid then { m with failed := true } else m) = l := by
  induction l with
  | nil => rfl
  | cons m rest ih =>
    have hm : m.id ≠ mid := h m (List.mem_cons_self m rest)
    simp only [List.map_cons, if_neg hm]
    rw [ih (fun x hx => h x (List.mem_cons_of_mem m hx))]

/-- Under unique ids, markFirst is the pointwise conditional marker. -/
lemma markFirst_eq_map (l : List Member) (mid : ℕ)
    (h : (l.map (fun m => m.id)).Nodup) :
    markFirst l mid = l.map (fun m => if m.id = mid then { m with failed := true } else m) := by
  induction l with
  | nil => rfl
  | cons m rest ih =>
    simp only [List.map_cons, List.nodup_cons] at h
    by_cases hm : m.id = mid
    · simp only [markFirst, if_pos hm, List.map_cons]
      rw [map_markIf_of_not_mem rest mid]
      intro x hx hc
      exact h.1 (hm ▸ hc ▸ List.mem_map_of_mem (fun m => m.id) hx)
    · simp only [markFirst, if_neg hm, List.map_cons]
      rw [ih h.2]

/-- Under unique ids, folding markFirst over a list of ids marks exactly the
members whose id occurs in the list. -/
lemma foldl_markFirst_eq_map :
    ∀ (mids : List ℕ) (l : List Member), (l.map (fun m => m.id)).Nodup →
      List.foldl markFirst l mids =
        l.map (fun m => if m.id ∈ mids then { m with failed := true } else m) := by
  intro mids
  induction mids with
  | nil =>
    intro l _
    simp
  | cons mid mids ih =>
    intro l h
    simp only [List.foldl_cons]
    rw [markFirst_eq_map l mid h]
    have hnd : ((l.map (fun m => if m.id = mid then { m with failed := true } else m)).map
        (fun m => m.id)).Nodup := by
      rw [List.map_map]
      have : ∀ m ∈ l, ((fun m => m.id) ∘ fun m =>
          if m.id = mid then { m with failed := true } else m) m = m.id := by
        intro m _
        by_cases hm : m.id = mid <;> simp [hm]
      rw [List.map_congr_left this]
      exact h
    rw [ih _ hnd, List.map_map]
    refine List.map_congr_left ?_
    intro m _
    by_cases hm : m.id = mid
    · by_cases hmm : m.id ∈ mids <;>
        simp [Function.comp, hm, hmm, List.mem_cons]
    · by_cases hmm : m.id ∈ mids <;>
        simp [Function.comp, hm, hmm, List.mem_cons]

/-- C3 (amended): check_and_apply_failures returns exactly the ids of the
snapshot-active members whose combined stress reaches their yield stress, in
the order the members appear in the energy state (not sorted by id), and under
unique member ids it marks exactly those members failed in the frame. -/
theorem c3_failure_marking_amended (sq : ℚ → ℚ)
    (ss : (ℕ → ℕ → ℚ) → (ℕ → ℚ) → ℕ → ℚ) (frame : FrameData) (es : EnergyState)
    (h : (frame.members.map (fun m => m.id)).Nodup) :
    (checkAndApplyFailuresQ sq ss frame es).2 =
      (es.member_states.filter (failTest sq (displacementQ sq ss frame) frame)).map
        (fun ms => ms.member_id) ∧
    (checkAndApplyFailuresQ sq ss frame es).1 =
      { frame with members := frame.members.map (fun m =>
          if m.id ∈ (checkAndApplyFailuresQ sq ss frame es).2 then { m with failed := true }
          else m) } := by
  obtain ⟨e2, e1⟩ := checkFold_spec sq (displacementQ sq ss frame) frame
    es.member_states frame [] (markedFrom_refl frame)
  have h2 : (checkAndApplyFailuresQ sq ss frame es).2 =
      (es.member_states.filter (failTest sq (displacementQ sq ss frame) frame)).map
        (fun ms => ms.member_id) := by
    unfold checkAndApplyFailuresQ
    rw [e2]
    simp
  refine ⟨h2, ?_⟩
  unfold checkAndApplyFailuresQ
  rw [e1, foldl_markFirst_eq_map _ _ h, e2]
  simp

/-- Witness for C3 (amended) on frameC3, whose member ids 2 and 1 are unique. -/
theorem c3_failure_marking_witness :
    ((frameC3.members.map (fun m => m.id)).Nodup) ∧
    ((checkAndApplyFailuresQ sqrtQ solverStretch frameC3
        ⟨0, 0, [⟨2, 0, 0, 0, false⟩, ⟨1, 0, 0, 0, false⟩]⟩).2 =
      (([⟨2, 0, 0, 0, false⟩, ⟨1, 0, 0, 0, false⟩] : List MemberState).filter
        (failTest sqrtQ (displacementQ sqrtQ solverStretch frameC3) frameC3)).map
        (fun ms => ms.member_id) ∧
    (checkAndApplyFailuresQ sqrtQ solverStretch frameC3
        ⟨0, 0, [⟨2, 0, 0, 0, false⟩, ⟨1, 0, 0, 0, false⟩]⟩).1 =
      { frameC3 with members := frameC3.members.map (fun m =>
          if m.id ∈ (checkAndApplyFailuresQ sqrtQ solverStretch frameC3
            ⟨0, 0, [⟨2, 0, 0, 0, false⟩, ⟨1, 0, 0, 0, false⟩]⟩).2
          then { m with failed := true } else m) }) :=
  ⟨by decide, c3_failure_marking_amended sqrtQ solverStretch frameC3
    ⟨0, 0, [⟨2, 0, 0, 0, false⟩, ⟨1, 0, 0, 0, false⟩]⟩ (by decide)⟩

/-- Counterexample for C3 as stated: on frameC3 both members fail in the same
step and the returned id list is the snapshot order two-then-one, which is not
ascending. -/
theorem c3_sorted_counterexample :
    (checkAndApplyFailuresQ sqrtQ solverStretch frameC3
      ⟨0, 0, [⟨2, 0, 0, 0, false⟩, ⟨1, 0, 0, 0, false⟩]⟩).2 = [2, 1] ∧
    ¬ List.Sorted (fun a b => a ≤ b) ([2, 1] : List ℕ) := by
  constructor
  · have hd : displacementQ sqrtQ solverStretch frameC3 = uStretch := rfl
    have hspec := (checkFold_spec sqrtQ uStretch frameC3
      [⟨2, 0, 0, 0, false⟩, ⟨1, 0, 0, 0, false⟩] frameC3 []
      (markedFrom_refl frameC3)).1
    have hga : getMemberL frameC3 2 = ⟨2, 0, 1, matYieldOne, false⟩ := by
      simp [getMemberL, frameC3, List.find?]
    have hgb : getMemberL frameC3 1 = ⟨1, 1, 2, matYieldOne, false⟩ := by
      simp [getMemberL, frameC3, List.find?]
    have hta : failTest sqrtQ uStretch frameC3 ⟨2, 0, 0, 0, false⟩ = true := by
      simp only [failTest, Bool.not_false, Bool.true_and, decide_eq_true_eq, hga, stressC3a]
      norm_num [Member.sigma_y, matYieldOne]
    have htb : failTest sqrtQ uStretch frameC3 ⟨1, 0, 0, 0, false⟩ = true := by
      simp only [failTest, Bool.not_false, Bool.true_and, decide_eq_true_eq, hgb, stressC3b]
      norm_num [Member.sigma_y, matYieldOne]
    show (checkFold sqrtQ (displacementQ sqrtQ solverStretch frameC3)
      [⟨2, 0, 0, 0, false⟩, ⟨1, 0, 0, 0, false⟩] frameC3 []).2 = [2, 1]
    rw [hd, hspec]
    simp only [List.filter, hta, htb, List.map_cons, List.map_nil, List.nil_append]
  · decide

/-- Concrete combined stress of the weak frameC4 member under uPull. -/
lemma stressC4a :
    combinedStressQ sqrtQ (⟨0, 0, 1, matWeak, false⟩ : Member) uPull frameC4 = 1 := by
  norm_num [combinedStressQ, transformationQ, localStiffnessQ, memberLengthQ, getNodeL,
    frameC4, nodeAt, matWeak, dotQ, compQ, crossQ, normQ, smulInvQ, sqrtQ, uPull,
    Member.A, Member.Imom, Member.E, List.find?, defaultNode]

/-- Concrete combined stress of the tough frameC4 member under uPull. -/
lemma stressC4b :
    combinedStressQ sqrtQ (⟨1, 1, 2, matTough, false⟩ : Member) uPull frameC4 = 0 := by
  norm_num [combinedStressQ, transformationQ, localStiffnessQ, memberLengthQ, getNodeL,
    frameC4, nodeAt, matTough, dotQ, compQ, crossQ, normQ, smulInvQ, sqrtQ, uPull,
    Member.A, Member.Imom, Member.E, List.find?, defaultNode]

/-- Concrete equilibrium solve on frameC4 under the uPull displacement field. -/
lemma evalSolveC4 :
    solveQ sqrtQ solverPullX frameC4 0 1 =
      ⟨0, 1 / 2, [⟨0, 1 / 2, -1, 1, false⟩, ⟨1, 0, 0, 0, false⟩]⟩ := by
  norm_num [solveQ, computeMemberStateQ, transformationQ, localStiffnessQ, memberLengthQ,
    getNodeL, frameC4, nodeAt, matWeak, matTough, dotQ, compQ, crossQ, normQ, smulInvQ,
    sqrtQ, uPull, solverPullX, Member.A, Member.Imom, Member.E, List.find?, defaultNode,
    max_def]

/-- Concrete entropy record for the frameC4 first step. -/
lemma evalEntropyC4 :
    computeEntropyQ logQzero ⟨0, 1 / 2, [⟨0, 1 / 2, -1, 1, false⟩, ⟨1, 0, 0, 0, false⟩]⟩ 0 =
      ⟨0, 0, 0, [(0, 1), (1, 0)]⟩ := by
  norm_num [computeEntropyQ, shannonEntropyQ, logQzero]
  intro h
  simp at h

/-- Concrete detection dispatch for the frameC4 first step. -/
lemma evalDetectC4 :
    detectQ sqrtQ [⟨0, 0, 0, [(0, 1), (1, 0)]⟩] "threshold" (-100) 3 =
      .ok (false, none) := by
  norm_num [detectQ, detectCollapseThresholdQ]
  exact fun h => absurd h (by decide)

/-- Marked frameC4 after the first step's failure marking. -/
def frameC4m : FrameData :=
  ⟨"c4", [nodeAt 0 0, nodeAt 1 1, nodeAt 2 2],
    [⟨0, 0, 1, matWeak, true⟩, ⟨1, 1, 2, matTough, false⟩], []⟩

/-- Concrete failure marking for the frameC4 first step: the weak member
fails, the tough one survives. -/
lemma evalCheckC4 :
    checkAndApplyFailuresQ sqrtQ solverPullX frameC4
      ⟨0, 1 / 2, [⟨0, 1 / 2, -1, 1, false⟩, ⟨1, 0, 0, 0, false⟩]⟩ =
      (frameC4m, [0]) := by
  have hd : displacementQ sqrtQ solverPullX frameC4 = uPull := rfl
  obtain ⟨e2, e1⟩ := checkFold_spec sqrtQ uPull frameC4
    [⟨0, 1 / 2, -1, 1, false⟩, ⟨1, 0, 0, 0, false⟩] frameC4 [] (markedFrom_refl frameC4)
  have hga : getMemberL frameC4 0 = ⟨0, 0, 1, matWeak, false⟩ := by
    simp [getMemberL, frameC4, List.find?]
  have hgb : getMemberL frameC4 1 = ⟨1, 1, 2, matTough, false⟩ := by
    simp [getMemberL, frameC4, List.find?]
  have hta : failTest sqrtQ uPull frameC4 ⟨0, 1 / 2, -1, 1, false⟩ = true := by
    simp only [failTest, Bool.not_false, Bool.true_and, decide_eq_true_eq, hga, stressC4a]
    norm_num [Member.sigma_y, matWeak]
  have htb : failTest sqrtQ uPull frameC4 ⟨1, 0, 0, 0, false⟩ = false := by
    simp only [failTest, Bool.not_false, Bool.true_and, hgb, stressC4b]
    norm_num [Member.sigma_y, matTough]
  have hfil : ([⟨0, 1 / 2, -1, 1, false⟩, ⟨1, 0, 0, 0, false⟩] : List MemberState).filter
      (failTest sqrtQ uPull frameC4) = [⟨0, 1 / 2, -1, 1, false⟩] := by
    simp only [List.filter, hta, htb]
  unfold checkAndApplyFailuresQ
  rw [hd]
  have hp : checkFold sqrtQ uPull
      [⟨0, 1 / 2, -1, 1, false⟩, ⟨1, 0, 0, 0, false⟩] frameC4 [] =
      ((checkFold sqrtQ uPull [⟨0, 1 / 2, -1, 1, false⟩, ⟨1, 0, 0, 0, false⟩] frameC4 []).1,
       (checkFold sqrtQ uPull [⟨0, 1 / 2, -1, 1, false⟩, ⟨1, 0, 0, 0, false⟩] frameC4 []).2) :=
    rfl
  rw [hp, e1, e2, hfil]
  simp [markFirst, frameC4, frameC4m]


/-- Concrete redistribution after the frameC4 first step: the member that just
failed still counts as active in the snapshot and sheds half of half its
energy to its neighbour. -/
lemma evalRedistributeC4 :
    redistributeQ sqrtQ frameC4m ⟨0, 1 / 2, [⟨0, 1 / 2, -1, 1, false⟩, ⟨1, 0, 0, 0, false⟩]⟩
      (1 / 2) =
      ⟨0, 1 / 2, [⟨0, 1 / 4, -1, 1, false⟩, ⟨1, 1 / 4, 0, 0, false⟩]⟩ := by
  have hded : ([0, 1, 1, 2] : List ℕ).dedup = [0, 1, 2] := by decide
  have hb01 : ((0 : ℕ) == 1) = false := rfl
  have hb10 : ((1 : ℕ) == 0) = false := rfl
  have hb00 : ((0 : ℕ) == 0) = true := rfl
  have hb11 : ((1 : ℕ) == 1) = true := rfl
  have hr2 : List.range 2 = [0, 1] := rfl
  norm_num [redistributeQ, activeIdsQ, activeUQ, dUQ, uNewQ, buildCouplingMatrixQ,
    membersAtNode, axialStiffnessQ,
    harmonicMeanQ, memberLengthQ, getNodeL, frameC4m, nodeAt, matWeak, matTough, dotQ,
    sqrtQ, Member.A, Member.E, List.find?, defaultNode, hded, List.indexOf, List.findIdx,
    List.findIdx.go, max_def, hb01, hb10, hb00, hb11, hr2, List.getD,
    List.getElem?_cons_zero, List.getElem?_cons_succ, cond_false, cond_true]

/-- Concrete full run of the orchestrator on frameC4 for one step: the weak
member fails, redistribution runs and replaces the stored energy state. -/
lemma evalRunC4 :
    runQ sqrtQ logQzero solverPullX frameC4 1 (1 / 2) "threshold" (-100) 3 =
      .ok (⟨"c4", [⟨0, 1 / 2, [⟨0, 1 / 4, -1, 1, false⟩, ⟨1, 1 / 4, 0, 0, false⟩]⟩],
        [⟨0, 0, 0, [(0, 1), (1, 0)]⟩], false, none, [0]⟩, frameC4m) := by
  have hall : allFailedQ frameC4m = false := by decide
  unfold runQ
  have ht : (1 : ℤ).toNat = 1 := rfl
  rw [ht]
  simp only [runLoopQ, evalSolveC4, List.nil_append, evalEntropyC4, evalDetectC4,
    evalCheckC4, hall, Bool.false_eq_true, if_false, evalRedistributeC4]
  norm_num [frameC4m, List.dropLast]

/-- Counterexample for C4 as stated: after the orchestrator's redistribution
following the step in which member 0 newly failed, member 0 is failed in the
frame yet its energy entry in the stored EnergyState is one quarter, not zero. -/
theorem c4_newly_failed_counterexample :
    (runQ sqrtQ logQzero solverPullX frameC4 1 (1 / 2) "threshold" (-100) 3).toOption.map
      (fun p => (((p.1.energy_history.getD 0 defaultES).member_states.getD 0
        defaultMS).strain_energy, (p.2.members.getD 0 defaultMember).failed)) =
      some ((1 / 4 : ℚ), true) ∧ ((1 / 4 : ℚ) ≠ 0) := by
  constructor
  · rw [evalRunC4]
    simp [Except.toOption, frameC4m, List.getD]
  · norm_num

/-- A member state produced by the solve with its failed flag set is the
all-zero snapshot of a failed member. -/
lemma computeMemberStateQ_failed (sq : ℚ → ℚ) (m : Member) (u : ℕ → ℚ) (fr : FrameData)
    (h : (computeMemberStateQ sq m u fr).failed = true) :
    computeMemberStateQ sq m u fr = ⟨m.id, 0, 0, 0, true⟩ := by
  by_cases hm : m.failed
  · simp [computeMemberStateQ, hm]
  · exfalso
    simp [computeMemberStateQ, hm] at h

/-- C4 (amended): redistribution leaves untouched exactly the members marked
failed in the energy-state snapshot — those that had already failed before
this step's solve — and the solve gives them zero strain energy.  Members that
newly failed during the current step still carry failed equal false in the
snapshot, so they participate in redistribution (see the counterexample). -/
theorem c4_snapshot_failed_amended (sq : ℚ → ℚ)
    (ss : (ℕ → ℕ → ℚ) → (ℕ → ℚ) → ℕ → ℚ) (frame frame2 : FrameData) (step : ℕ)
    (lf dt : ℚ) (es : EnergyState) (hes : es = solveQ sq ss frame step lf)
    (h : (es.member_states.map (fun ms => ms.member_id)).Nodup)
    (i : ℕ) (hi : i < es.member_states.length)
    (hfail : (es.member_states.get ⟨i, hi⟩).failed = true) :
    (redistributeQ sq frame2 es dt).member_states.getD i defaultMS =
      es.member_states.get ⟨i, hi⟩ ∧
    (es.member_states.get ⟨i, hi⟩).strain_energy = 0 := by
  have hnotin : (es.member_states.get ⟨i, hi⟩).member_id ∉ activeIdsQ es := by
    intro hmem
    unfold activeIdsQ at hmem
    obtain ⟨ms, hmsf, hmid⟩ := List.mem_map.mp hmem
    have hms := List.mem_filter.mp hmsf
    have heq : ms = es.member_states.get ⟨i, hi⟩ :=
      List.inj_on_of_nodup_map h hms.1 (es.member_states.get_mem i hi) hmid
    rw [heq, hfail] at hms
    simp at hms
  constructor
  · have hlen : i < ((redistributeQ sq frame2 es dt).member_states).length := by
      simp [redistributeQ]
      exact hi
    rw [List.getD_eq_getElem _ _ hlen]
    simp only [redistributeQ, List.getElem_map]
    have hsame : es.member_states[i] = es.member_states.get ⟨i, hi⟩ := rfl
    rw [hsame, if_neg hnotin]
  · subst hes
    simp only [solveQ, List.get_eq_getElem, List.getElem_map] at hfail ⊢
    rw [computeMemberStateQ_failed sq _ _ _ hfail]

/-- Snapshot of the already-failed single member of frameDone. -/
def esW : EnergyState := ⟨0, 0, [⟨0, 0, 0, 0, true⟩]⟩

/-- Concrete equilibrium solve on frameDone: the failed member contributes an
all-zero snapshot. -/
lemma evalSolveDone : solveQ sqrtQ solverZero frameDone 0 1 = esW := by
  norm_num [solveQ, computeMemberStateQ, frameDone, esW]

/-- Witness for C4 (amended): the failed member of frameDone is untouched by a
redistribution step and carries zero strain energy. -/
theorem c4_snapshot_failed_witness :
    (esW = solveQ sqrtQ solverZero frameDone 0 1 ∧
      ((esW.member_states.map (fun ms => ms.member_id)).Nodup) ∧
      (esW.member_states.get ⟨0, by decide⟩).failed = true) ∧
    ((redistributeQ sqrtQ frameX esW 1).member_states.getD 0 defaultMS =
      esW.member_states.get ⟨0, by decide⟩ ∧
      (esW.member_states.get ⟨0, by decide⟩).strain_energy = 0) :=
  ⟨⟨evalSolveDone.symm, by decide, by decide⟩,
    c4_snapshot_failed_amended sqrtQ solverZero frameDone frameX 0 1 1 esW
      evalSolveDone.symm (by decide) 0 (by decide) (by decide)⟩

/-- getD on an append, inside the left part. -/
lemma getD_append_left {α : Type} (l1 l2 : List α) (i : ℕ) (d : α) (h : i < l1.length) :
    (l1 ++ l2).getD i d = l1.getD i d := by
  rw [List.getD_eq_getElem _ _ (by simp; omega), List.getD_eq_getElem _ _ h]
  exact List.getElem_append_left h

/-- getD of the appended element. -/
lemma getD_concat_self {α : Type} (l : List α) (a d : α) :
    (l ++ [a]).getD l.length d = a := by
  rw [List.getD_eq_getElem _ _ (by simp)]
  simp

/-- Characterization of a completed loop step i: either no member newly failed
and the stored energy state is the pre-redistribution solve, or some members
newly failed, not all members are failed, and the stored state is the
post-redistribution replacement of the solve. -/
def stepChar (sq : ℚ → ℚ) (ss : (ℕ → ℕ → ℚ) → (ℕ → ℚ) → ℕ → ℚ) (frame0 : FrameData)
    (dt : ℚ) (i : ℕ) (ee : EnergyState) : Prop :=
  ((checkAndApplyFailuresQ sq ss (frameTrace sq ss frame0 i) (preTrace sq ss frame0 i)).2 =
      [] ∧ ee = preTrace sq ss frame0 i) ∨
  ((checkAndApplyFailuresQ sq ss (frameTrace sq ss frame0 i) (preTrace sq ss frame0 i)).2 ≠
      [] ∧
    allFailedQ (checkAndApplyFailuresQ sq ss (frameTrace sq ss frame0 i)
      (preTrace sq ss frame0 i)).1 = false ∧
    ee = redistributeQ sq
      (checkAndApplyFailuresQ sq ss (frameTrace sq ss frame0 i) (preTrace sq ss frame0 i)).1
      (preTrace sq ss frame0 i) dt)

/-- Unfolding equation for preTrace. -/
lemma preTrace_def (sq : ℚ → ℚ) (ss : (ℕ → ℕ → ℚ) → (ℕ → ℚ) → ℕ → ℚ)
    (frame : FrameData) (i : ℕ) :
    preTrace sq ss frame i = solveQ sq ss (frameTrace sq ss frame i) i 1 := rfl

/-- Unfolding equation for frameTrace at a successor step. -/
lemma frameTrace_succ (sq : ℚ → ℚ) (ss : (ℕ → ℕ → ℚ) → (ℕ → ℚ) → ℕ → ℚ)
    (frame : FrameData) (i : ℕ) :
    frameTrace sq ss frame (i + 1) =
      (checkAndApplyFailuresQ sq ss (frameTrace sq ss frame i)
        (solveQ sq ss (frameTrace sq ss frame i) i 1)).1 := rfl

/-- Unfolding equation for prevTrace at a successor step. -/
lemma prevTrace_succ (sq lg : ℚ → ℚ) (ss : (ℕ → ℕ → ℚ) → (ℕ → ℚ) → ℕ → ℚ)
    (frame : FrameData) (i : ℕ) :
    prevTrace sq lg ss frame (i + 1) =
      (computeEntropyQ lg (solveQ sq ss (frameTrace sq ss frame i) i 1)
        (prevTrace sq lg ss frame i)).entropy := rfl

set_option maxHeartbeats 1000000 in
/-- Invariant-passing characterization of the whole loop: histories stay equal
in length; every entropy record is computed from the pre-redistribution state
and threaded previous entropy; every completed step satisfies stepChar, and a
step terminated by detection or total failure keeps its pre-redistribution
energy state. -/
lemma runLoopQ_char (sq lg : ℚ → ℚ) (ss : (ℕ → ℕ → ℚ) → (ℕ → ℚ) → ℕ → ℚ)
    (dt thr zs : ℚ) (method : String) (frame0 : FrameData) :
    ∀ (fuel step : ℕ) (eh : List EnergyState) (sh : List EntropyRecord) (fs : List ℕ)
      (r : SimulationResult) (fr2 : FrameData),
      eh.length = step → sh.length = step →
      (∀ i, i < step → sh.getD i defaultER =
        computeEntropyQ lg (preTrace sq ss frame0 i) (prevTrace sq lg ss frame0 i)) →
      (∀ i, i < step → stepChar sq ss frame0 dt i (eh.getD i defaultES)) →
      runLoopQ sq lg ss dt thr zs method fuel (frameTrace sq ss frame0 step) step
        (prevTrace sq lg ss frame0 step) eh sh fs = .ok (r, fr2) →
      (r.energy_history.length = r.entropy_history.length ∧
        ∀ i, ∀ _ : i < r.entropy_history.length,
          r.entropy_history.getD i defaultER =
            computeEntropyQ lg (preTrace sq ss frame0 i) (prevTrace sq lg ss frame0 i) ∧
          (if i + 1 < r.entropy_history.length ∨ r.collapse_detected = false
            then stepChar sq ss frame0 dt i (r.energy_history.getD i defaultES)
            else r.energy_history.getD i defaultES = preTrace sq ss frame0 i)) := by
  intro fuel
  induction fuel with
  | zero =>
    intro step eh sh fs r fr2 hle hls hsh heh hrun
    simp only [runLoopQ, Except.ok.injEq, Prod.mk.injEq] at hrun
    obtain ⟨hr, hfr⟩ := hrun
    subst hr
    dsimp only
    refine ⟨by rw [hle, hls], fun i hi => ?_⟩
    rw [hls] at hi
    refine ⟨hsh i hi, ?_⟩
    rw [if_pos (Or.inr rfl)]
    exact heh i hi
  | succ fuel ih =>
    intro step eh sh fs r fr2 hle hls hsh heh hrun
    simp only [runLoopQ] at hrun
    split at hrun
    · exact absurd hrun (by simp)
    · -- detector flagged: immediate return with pre-redistribution last state
      rename_i cstep heq
      simp only [Except.ok.injEq, Prod.mk.injEq] at hrun
      obtain ⟨hr, _⟩ := hrun
      subst hr
      dsimp only
      have hlep : (eh ++ [solveQ sq ss (frameTrace sq ss frame0 step) step 1]).length =
          step + 1 := by simp [hle]
      have hlsp : (sh ++ [computeEntropyQ lg
          (solveQ sq ss (frameTrace sq ss frame0 step) step 1)
          (prevTrace sq lg ss frame0 step)]).length = step + 1 := by simp [hls]
      refine ⟨by rw [hlep, hlsp], fun i hi => ?_⟩
      rw [hlsp] at hi
      rcases Nat.lt_succ_iff_lt_or_eq.mp hi with hi2 | hi2
      · refine ⟨?_, ?_⟩
        · rw [getD_append_left _ _ _ _ (hls ▸ hi2)]
          exact hsh i hi2
        · rw [if_pos (Or.inl (by rw [hlsp]; omega))]
          rw [getD_append_left _ _ _ _ (hle ▸ hi2)]
          exact heh i hi2
      · subst hi2
        refine ⟨?_, ?_⟩
        · rw [← hls, getD_concat_self]
          rfl
        · rw [if_neg (by rw [hlsp]; simp)]
          rw [← hle, getD_concat_self]
          rfl
    · -- no detection: failure marking, possible redistribution, recursion
      rename_i b heq
      split at hrun
      · -- every member failed after marking: immediate return
        rename_i hall
        simp only [Except.ok.injEq, Prod.mk.injEq] at hrun
        obtain ⟨hr, hfr⟩ := hrun
        subst hr
        dsimp only
        have hlep : (eh ++ [solveQ sq ss (frameTrace sq ss frame0 step) step 1]).length =
            step + 1 := by simp [hle]
        have hlsp : (sh ++ [computeEntropyQ lg
            (solveQ sq ss (frameTrace sq ss frame0 step) step 1)
            (prevTrace sq lg ss frame0 step)]).length = step + 1 := by simp [hls]
        refine ⟨by rw [hlep, hlsp], fun i hi => ?_⟩
        rw [hlsp] at hi
        rcases Nat.lt_succ_iff_lt_or_eq.mp hi with hi2 | hi2
        · refine ⟨?_, ?_⟩
          · rw [getD_append_left _ _ _ _ (hls ▸ hi2)]
            exact hsh i hi2
          · rw [if_pos (Or.inl (by rw [hlsp]; omega))]
            rw [getD_append_left _ _ _ _ (hle ▸ hi2)]
            exact heh i hi2
        · subst hi2
          refine ⟨?_, ?_⟩
          · rw [← hls, getD_concat_self]
            rfl
          · rw [if_neg (by rw [hlsp]; simp)]
            rw [← hle, getD_concat_self]
            rfl
      · -- loop continues
        rename_i hall
        have hallf : allFailedQ (checkAndApplyFailuresQ sq ss (frameTrace sq ss frame0 step)
            (solveQ sq ss (frameTrace sq ss frame0 step) step 1)).1 = false :=
          Bool.not_eq_true _ ▸ eq_false_of_ne_true hall
        split at hrun
        · -- failures occurred: the last energy state is replaced
          rename_i hne
          rw [List.dropLast_concat] at hrun
          have hrun2 : runLoopQ sq lg ss dt thr zs method fuel
              (frameTrace sq ss frame0 (step + 1)) (step + 1)
              (prevTrace sq lg ss frame0 (step + 1))
              (eh ++ [redistributeQ sq
                (checkAndApplyFailuresQ sq ss (frameTrace sq ss frame0 step)
                  (solveQ sq ss (frameTrace sq ss frame0 step) step 1)).1
                (solveQ sq ss (frameTrace sq ss frame0 step) step 1) dt])
              (sh ++ [computeEntropyQ lg (solveQ sq ss (frameTrace sq ss frame0 step) step 1)
                (prevTrace sq lg ss frame0 step)])
              (fs ++ (checkAndApplyFailuresQ sq ss (frameTrace sq ss frame0 step)
                (solveQ sq ss (frameTrace sq ss frame0 step) step 1)).2) =
              .ok (r, fr2) := by
            rw [frameTrace_succ, prevTrace_succ]
            exact hrun
          have hgs : ∀ (x : EntropyRecord), (sh ++ [x]).getD step defaultER = x := by
            intro x
            rw [← hls]
            exact getD_concat_self _ _ _
          have hgd : ∀ (x : EnergyState), (eh ++ [x]).getD step defaultES = x := by
            intro x
            rw [← hle]
            exact getD_concat_self _ _ _
          refine ih (step + 1) _ _ _ r fr2 (by simp [hle]) (by simp [hls]) ?_ ?_ hrun2
          · intro i hi
            rcases Nat.lt_succ_iff_lt_or_eq.mp hi with hi2 | hi2
            · rw [getD_append_left _ _ _ _ (hls ▸ hi2)]
              exact hsh i hi2
            · subst hi2
              rw [hgs, preTrace_def]
          · intro i hi
            rcases Nat.lt_succ_iff_lt_or_eq.mp hi with hi2 | hi2
            · rw [getD_append_left _ _ _ _ (hle ▸ hi2)]
              exact heh i hi2
            · subst hi2
              rw [hgd]
              unfold stepChar
              rw [preTrace_def]
              exact Or.inr ⟨hne, hallf, rfl⟩
        · -- no failures: plain recursion
          rename_i hne
          have hne2 : (checkAndApplyFailuresQ sq ss (frameTrace sq ss frame0 step)
              (solveQ sq ss (frameTrace sq ss frame0 step) step 1)).2 = [] := by
            by_contra hcon
            exact hne hcon
          have hrun2 : runLoopQ sq lg ss dt thr zs method fuel
              (frameTrace sq ss frame0 (step + 1)) (step + 1)
              (prevTrace sq lg ss frame0 (step + 1))
              (eh ++ [solveQ sq ss (frameTrace sq ss frame0 step) step 1])
              (sh ++ [computeEntropyQ lg (solveQ sq ss (frameTrace sq ss frame0 step) step 1)
                (prevTrace sq lg ss frame0 step)])
              (fs ++ (checkAndApplyFailuresQ sq ss (frameTrace sq ss frame0 step)
                (solveQ sq ss (frameTrace sq ss frame0 step) step 1)).2) =
              .ok (r, fr2) := by
            rw [frameTrace_succ, prevTrace_succ]
            exact hrun
          have hgs : ∀ (x : EntropyRecord), (sh ++ [x]).getD step defaultER = x := by
            intro x
            rw [← hls]
            exact getD_concat_self _ _ _
          have hgd : ∀ (x : EnergyState), (eh ++ [x]).getD step defaultES = x := by
            intro x
            rw [← hle]
            exact getD_concat_self _ _ _
          refine ih (step + 1) _ _ _ r fr2 (by simp [hle]) (by simp [hls]) ?_ ?_ hrun2
          · intro i hi
            rcases Nat.lt_succ_iff_lt_or_eq.mp hi with hi2 | hi2
            · rw [getD_append_left _ _ _ _ (hls ▸ hi2)]
              exact hsh i hi2
            · subst hi2
              rw [hgs, preTrace_def]
          · intro i hi
            rcases Nat.lt_succ_iff_lt_or_eq.mp hi with hi2 | hi2
            · rw [getD_append_left _ _ _ _ (hle ▸ hi2)]
              exact heh i hi2
            · subst hi2
              rw [hgd]
              unfold stepChar
              rw [preTrace_def]
              exact Or.inl ⟨hne2, rfl⟩

/-- C1: for every successful run, the energy and entropy histories have equal
length; every entropy record is computed from the pre-redistribution energy
state of its step (with the threaded previous entropy); every completed step
either had no new failures and stores the solve's EnergyState, or had new
failures (with survivors remaining) and stores the post-redistribution
EnergyState in place of it; a final step cut short by detection or total
failure keeps the pre-redistribution state. -/
theorem c1_replace_semantics (sq lg : ℚ → ℚ) (ss : (ℕ → ℕ → ℚ) → (ℕ → ℚ) → ℕ → ℚ)
    (frame : FrameData) (max_steps : ℤ) (dt : ℚ) (method : String) (thr zs : ℚ)
    (r : SimulationResult) (fr2 : FrameData)
    (hrun : runQ sq lg ss frame max_steps dt method thr zs = .ok (r, fr2)) :
    r.energy_history.length = r.entropy_history.length ∧
    ∀ i, ∀ _ : i < r.entropy_history.length,
      r.entropy_history.getD i defaultER =
        computeEntropyQ lg (preTrace sq ss frame i) (prevTrace sq lg ss frame i) ∧
      (if i + 1 < r.entropy_history.length ∨ r.collapse_detected = false
        then stepChar sq ss frame dt i (r.energy_history.getD i defaultES)
        else r.energy_history.getD i defaultES = preTrace sq ss frame i) :=
  runLoopQ_char sq lg ss dt thr zs method frame max_steps.toNat 0 [] [] [] r fr2
    rfl rfl (fun i hi => absurd hi (Nat.not_lt_zero i))
    (fun i hi => absurd hi (Nat.not_lt_zero i)) hrun

/-- Concrete full run on frameDone: the single member is already failed, so
the first step records zero energy and empty entropy distribution, then
terminates with all members failed. -/
lemma evalRunDone :
    runQ sqrtQ logQzero solverZero frameDone 1 1 "zscore" (-1 / 2) 3 =
      .ok (⟨"done", [esW], [⟨0, 0, 0, []⟩], true, some 0, []⟩, frameDone) := by
  have hent : computeEntropyQ logQzero esW 0 = ⟨0, 0, 0, []⟩ := by
    simp [computeEntropyQ, esW]
  have hdet : detectQ sqrtQ [(⟨0, 0, 0, []⟩ : EntropyRecord)] "zscore" (-1 / 2) 3 =
      .ok (false, none) := by
    simp [detectQ, detectCollapseZscoreQ]
  have hchk : checkAndApplyFailuresQ sqrtQ solverZero frameDone esW = (frameDone, []) := by
    simp [checkAndApplyFailuresQ, checkFold, esW]
  have hall : allFailedQ frameDone = true := by decide
  unfold runQ
  have ht : (1 : ℤ).toNat = 1 := rfl
  rw [ht]
  simp only [runLoopQ, evalSolveDone, List.nil_append, hent, hdet, hchk, hall, if_true]
  simp [frameDone]

/-- Witness for C1 on the frameDone run. -/
theorem c1_replace_semantics_witness :
    (runQ sqrtQ logQzero solverZero frameDone 1 1 "zscore" (-1 / 2) 3 =
      .ok (⟨"done", [esW], [⟨0, 0, 0, []⟩], true, some 0, []⟩, frameDone)) ∧
    ((⟨"done", [esW], [⟨0, 0, 0, []⟩], true, some 0, []⟩ :
        SimulationResult).energy_history.length =
      (⟨"done", [esW], [⟨0, 0, 0, []⟩], true, some 0, []⟩ :
        SimulationResult).entropy_history.length ∧
    ∀ i, ∀ _ : i < (⟨"done", [esW], [⟨0, 0, 0, []⟩], true, some 0, []⟩ :
        SimulationResult).entropy_history.length,
      (⟨"done", [esW], [⟨0, 0, 0, []⟩], true, some 0, []⟩ :
          SimulationResult).entropy_history.getD i defaultER =
        computeEntropyQ logQzero (preTrace sqrtQ solverZero frameDone i)
          (prevTrace sqrtQ logQzero solverZero frameDone i) ∧
      (if i + 1 < (⟨"done", [esW], [⟨0, 0, 0, []⟩], true, some 0, []⟩ :
            SimulationResult).entropy_history.length ∨
          (⟨"done", [esW], [⟨0, 0, 0, []⟩], true, some 0, []⟩ :
            SimulationResult).collapse_detected = false
        then stepChar sqrtQ solverZero frameDone 1 i
          ((⟨"done", [esW], [⟨0, 0, 0, []⟩], true, some 0, []⟩ :
            SimulationResult).energy_history.getD i defaultES)
        else (⟨"done", [esW], [⟨0, 0, 0, []⟩], true, some 0, []⟩ :
            SimulationResult).energy_history.getD i defaultES =
          preTrace sqrtQ solverZero frameDone i)) :=
  ⟨evalRunDone, c1_replace_semantics sqrtQ logQzero solverZero frameDone 1 1 "zscore"
    (-1 / 2) 3 _ frameDone evalRunDone⟩

/-- The equilibrium solve produces only non-negative strain energies, and its
total energy is the sum of the member strain energies by construction. -/
lemma solveQ_energyOK (sq : ℚ → ℚ) (ss : (ℕ → ℕ → ℚ) → (ℕ → ℚ) → ℕ → ℚ)
    (frame : FrameData) (step : ℕ) (lf : ℚ) :
    (∀ ms ∈ (solveQ sq ss frame step lf).member_states, 0 ≤ ms.strain_energy) ∧
    (solveQ sq ss frame step lf).total_energy =
      ((solveQ sq ss frame step lf).member_states.map (fun ms => ms.strain_energy)).sum := by
  constructor
  · intro ms hms
    simp only [solveQ, List.mem_map] at hms
    obtain ⟨m, _, hm⟩ := hms
    subst hm
    unfold computeMemberStateQ
    by_cases hf : m.failed
    · simp [hf]
    · simp only [hf, Bool.false_eq_true, if_false]
      exact le_max_right _ _
  · rfl

/-- getD at the rational default zero is non-negative on a non-negative list. -/
lemma getD_nonneg (l : List ℚ) (k : ℕ) (h : ∀ x ∈ l, 0 ≤ x) : 0 ≤ l.getD k 0 := by
  rw [List.getD_eq_getElem?_getD]
  rcases hk : l[k]? with _ | x
  · simp
  · simp only [Option.getD_some]
    exact h x (List.getElem?_mem hk)

/-- Redistribution keeps strain energies non-negative and recomputes total
energy as the member sum. -/
lemma redistributeQ_energyOK (sq : ℚ → ℚ) (fr : FrameData) (es : EnergyState) (dt : ℚ)
    (h : ∀ ms ∈ es.member_states, 0 ≤ ms.strain_energy) :
    (∀ ms ∈ (redistributeQ sq fr es dt).member_states, 0 ≤ ms.strain_energy) ∧
    (redistributeQ sq fr es dt).total_energy =
      ((redistributeQ sq fr es dt).member_states.map (fun ms => ms.strain_energy)).sum := by
  constructor
  · intro ms hms
    simp only [redistributeQ, List.mem_map] at hms
    obtain ⟨ms0, hms0, hm⟩ := hms
    subst hm
    by_cases hin : ms0.member_id ∈ activeIdsQ es
    · simp only [if_pos hin]
      refine getD_nonneg _ _ ?_
      intro x hx
      simp only [uNewQ, List.mem_map] at hx
      obtain ⟨k, _, hk⟩ := hx
      subst hk
      exact le_max_right _ _
    · simp only [if_neg hin]
      exact h ms0 hms0
  · rfl

/-- C9: in every successful run, every EnergyState in the energy history —
whether produced by the equilibrium solve or substituted by redistribution —
has non-negative member strain energies, and its total_energy equals the sum
of the member strain energies. -/
theorem c9_energy_invariant (sq lg : ℚ → ℚ) (ss : (ℕ → ℕ → ℚ) → (ℕ → ℚ) → ℕ → ℚ)
    (frame : FrameData) (max_steps : ℤ) (dt : ℚ) (method : String) (thr zs : ℚ)
    (r : SimulationResult) (fr2 : FrameData)
    (hrun : runQ sq lg ss frame max_steps dt method thr zs = .ok (r, fr2)) :
    ∀ es ∈ r.energy_history, (∀ ms ∈ es.member_states, 0 ≤ ms.strain_energy) ∧
      es.total_energy = (es.member_states.map (fun ms => ms.strain_energy)).sum := by
  obtain ⟨hlen, hchar⟩ := runLoopQ_char sq lg ss dt thr zs method frame max_steps.toNat 0
    [] [] [] r fr2 rfl rfl (fun i hi => absurd hi (Nat.not_lt_zero i))
    (fun i hi => absurd hi (Nat.not_lt_zero i)) hrun
  intro es hes
  obtain ⟨i, hi, hgd⟩ := List.mem_iff_getElem.mp hes
  have hgd2 : r.energy_history.getD i defaultES = es := by
    rw [List.getD_eq_getElem _ _ hi]
    exact hgd
  have hchar2 := (hchar i (hlen ▸ hi)).2
  have hsolve := solveQ_energyOK sq ss (frameTrace sq ss frame i) i 1
  split_ifs at hchar2
  · rcases hchar2 with ⟨_, hee⟩ | ⟨_, _, hee⟩
    · rw [hgd2] at hee
      subst hee
      rw [preTrace_def]
      exact hsolve
    · rw [hgd2] at hee
      subst hee
      rw [preTrace_def]
      exact redistributeQ_energyOK sq _ _ dt hsolve.1
  · rw [hgd2] at hchar2
    subst hchar2
    rw [preTrace_def]
    exact hsolve

/-- Witness for C9 on the frameDone run. -/
theorem c9_energy_invariant_witness :
    (runQ sqrtQ logQzero solverZero frameDone 1 1 "zscore" (-1 / 2) 3 =
      .ok (⟨"done", [esW], [⟨0, 0, 0, []⟩], true, some 0, []⟩, frameDone)) ∧
    (∀ es ∈ (⟨"done", [esW], [⟨0, 0, 0, []⟩], true, some 0, []⟩ :
        SimulationResult).energy_history,
      (∀ ms ∈ es.member_states, 0 ≤ ms.strain_energy) ∧
      es.total_energy = (es.member_states.map (fun ms => ms.strain_energy)).sum) :=
  ⟨evalRunDone, c9_energy_invariant sqrtQ logQzero solverZero frameDone 1 1 "zscore"
    (-1 / 2) 3 _ frameDone evalRunDone⟩

/-- The member state snapshot carries the member's id. -/
lemma computeMemberStateQ_id (sq : ℚ → ℚ) (m : Member) (u : ℕ → ℚ) (fr : FrameData) :
    (computeMemberStateQ sq m u fr).member_id = m.id := by
  unfold computeMemberStateQ
  by_cases hf : m.failed <;> simp [hf]

/-- The member state snapshot carries the member's failed flag at solve time. -/
lemma computeMemberStateQ_flag (sq : ℚ → ℚ) (m : Member) (u : ℕ → ℚ) (fr : FrameData) :
    (computeMemberStateQ sq m u fr).failed = m.failed := by
  unfold computeMemberStateQ
  by_cases hf : m.failed <;> simp [hf]

/-- The solve's snapshot lists member ids in frame order. -/
lemma solveQ_states_ids (sq : ℚ → ℚ) (ss : (ℕ → ℕ → ℚ) → (ℕ → ℚ) → ℕ → ℚ)
    (frame : FrameData) (step : ℕ) (lf : ℚ) :
    (solveQ sq ss frame step lf).member_states.map (fun ms => ms.member_id) =
      frame.members.map (fun m => m.id) := by
  simp only [solveQ, List.map_map]
  exact List.map_congr_left (fun m _ => computeMemberStateQ_id sq m _ frame)

/-- Every snapshot state corresponds to a frame member with the same id and
the same failed flag. -/
lemma solveQ_states_mem (sq : ℚ → ℚ) (ss : (ℕ → ℕ → ℚ) → (ℕ → ℚ) → ℕ → ℚ)
    (frame : FrameData) (step : ℕ) (lf : ℚ) (ms : MemberState)
    (h : ms ∈ (solveQ sq ss frame step lf).member_states) :
    ∃ m ∈ frame.members, ms.member_id = m.id ∧ ms.failed = m.failed := by
  simp only [solveQ, List.mem_map] at h
  obtain ⟨m, hm, hms⟩ := h
  subst hms
  exact ⟨m, hm, computeMemberStateQ_id sq m _ frame, computeMemberStateQ_flag sq m _ frame⟩

/-- Standalone characterization of check_and_apply_failures, packaged from the
loop characterization: the newly-failed list and the markFirst fold form of
the returned frame. -/
lemma checkAndApplyFailuresQ_spec (sq : ℚ → ℚ)
    (ss : (ℕ → ℕ → ℚ) → (ℕ → ℚ) → ℕ → ℚ) (frame : FrameData) (es : EnergyState) :
    (checkAndApplyFailuresQ sq ss frame es).2 =
      (es.member_states.filter (failTest sq (displacementQ sq ss frame) frame)).map
        (fun ms => ms.member_id) ∧
    (checkAndApplyFailuresQ sq ss frame es).1 =
      { frame with members := List.foldl markFirst frame.members ((es.member_states.filter (failTest sq (displacementQ sq ss frame) frame)).map (fun ms => ms.member_id)) } := by
  obtain ⟨e2, e1⟩ := checkFold_spec sq (displacementQ sq ss frame) frame
    es.member_states frame [] (markedFrom_refl frame)
  constructor
  · unfold checkAndApplyFailuresQ
    rw [e2]
    simp
  · unfold checkAndApplyFailuresQ
    exact e1

/-- Helper: marking preserves ids pointwise. -/
lemma markIf_map_id (l : List Member) (L : List ℕ) :
    (l.map (fun m => if m.id ∈ L then { m with failed := true } else m)).map
      (fun m => m.id) = l.map (fun m => m.id) := by
  rw [List.map_map]
  refine List.map_congr_left ?_
  intro m _
  by_cases hm : m.id ∈ L <;> simp [hm]

/-- Failed-sequence invariant of the loop: under unique member ids, starting
from any frame whose failed flags agree with membership in the accumulated
failure sequence, the run returns a duplicate-free failure sequence, preserves
the id sequence, and ends with failed flags exactly matching membership. -/
lemma runLoopQ_c10 (sq lg : ℚ → ℚ) (ss : (ℕ → ℕ → ℚ) → (ℕ → ℚ) → ℕ → ℚ)
    (dt thr zs : ℚ) (method : String) (ids0 : List ℕ) (hnd : ids0.Nodup) :
    ∀ (fuel : ℕ) (frameCur : FrameData) (step : ℕ) (prevS : ℚ)
      (eh : List EnergyState) (sh : List EntropyRecord) (fs : List ℕ)
      (r : SimulationResult) (fr2 : FrameData),
      frameCur.members.map (fun m => m.id) = ids0 →
      fs.Nodup →
      (∀ k, ∀ hk : k < frameCur.members.length,
        ((frameCur.members.get ⟨k, hk⟩).failed = true ↔
          (frameCur.members.get ⟨k, hk⟩).id ∈ fs)) →
      runLoopQ sq lg ss dt thr zs method fuel frameCur step prevS eh sh fs = .ok (r, fr2) →
      (r.failed_sequence.Nodup ∧ fr2.members.map (fun m => m.id) = ids0 ∧
        ∀ k, ∀ hk : k < fr2.members.length,
          ((fr2.members.get ⟨k, hk⟩).failed = true ↔
            (fr2.members.get ⟨k, hk⟩).id ∈ r.failed_sequence)) := by
  intro fuel
  induction fuel with
  | zero =>
    intro frameCur step prevS eh sh fs r fr2 hids hfs hinv hrun
    simp only [runLoopQ, Except.ok.injEq, Prod.mk.injEq] at hrun
    obtain ⟨hr, hfr⟩ := hrun
    subst hr
    subst hfr
    exact ⟨hfs, hids, hinv⟩
  | succ fuel ih =>
    intro frameCur step prevS eh sh fs r fr2 hids hfs hinv hrun
    have hndCur : (frameCur.members.map (fun m => m.id)).Nodup := hids ▸ hnd
    obtain ⟨hnewly, hmem1⟩ :=
      checkAndApplyFailuresQ_spec sq ss frameCur (solveQ sq ss frameCur step 1)
    have hLnd : (((solveQ sq ss frameCur step 1).member_states.filter
        (failTest sq (displacementQ sq ss frameCur) frameCur)).map
        (fun ms => ms.member_id)).Nodup := by
      have hsub : (((solveQ sq ss frameCur step 1).member_states.filter
          (failTest sq (displacementQ sq ss frameCur) frameCur)).map
          (fun ms => ms.member_id)).Sublist
          ((solveQ sq ss frameCur step 1).member_states.map (fun ms => ms.member_id)) :=
        List.Sublist.map _ (List.filter_sublist _)
      have hok : ((solveQ sq ss frameCur step 1).member_states.map
          (fun ms => ms.member_id)).Nodup := by
        rw [solveQ_states_ids, hids]
        exact hnd
      exact hok.sublist hsub
    have hLdisj : ∀ mid ∈ ((solveQ sq ss frameCur step 1).member_states.filter
        (failTest sq (displacementQ sq ss frameCur) frameCur)).map
        (fun ms => ms.member_id), mid ∉ fs := by
      intro mid hmid hin
      obtain ⟨ms, hmsf, hmideq⟩ := List.mem_map.mp hmid
      obtain ⟨hmsmem, hmst⟩ := List.mem_filter.mp hmsf
      have hmsflag : ms.failed = false := by
        simp only [failTest, Bool.and_eq_true, Bool.not_eq_true'] at hmst
        exact hmst.1
      obtain ⟨m, hm, hid, hflag⟩ := solveQ_states_mem sq ss frameCur step 1 ms hmsmem
      obtain ⟨k, hk, hkm⟩ := List.mem_iff_getElem.mp hm
      have hiv := hinv k hk
      rw [List.get_eq_getElem, hkm] at hiv
      have : m.failed = true := hiv.mpr (by rw [← hid, hmideq]; exact hin)
      rw [← hflag, hmsflag] at this
      exact Bool.false_ne_true this
    have hfr1 : (checkAndApplyFailuresQ sq ss frameCur
        (solveQ sq ss frameCur step 1)).1.members =
        frameCur.members.map (fun m =>
          if m.id ∈ ((solveQ sq ss frameCur step 1).member_states.filter
            (failTest sq (displacementQ sq ss frameCur) frameCur)).map
            (fun ms => ms.member_id) then { m with failed := true } else m) := by
      rw [hmem1]
      exact foldl_markFirst_eq_map _ frameCur.members hndCur
    have hids1 : (checkAndApplyFailuresQ sq ss frameCur
        (solveQ sq ss frameCur step 1)).1.members.map (fun m => m.id) = ids0 := by
      rw [hfr1, markIf_map_id, hids]
    have hfs1nd : (fs ++ (checkAndApplyFailuresQ sq ss frameCur
        (solveQ sq ss frameCur step 1)).2).Nodup := by
      rw [hnewly]
      refine List.Nodup.append hfs hLnd ?_
      intro a ha hb
      exact hLdisj a hb ha
    have hinv1 : ∀ k, ∀ hk : k < (checkAndApplyFailuresQ sq ss frameCur
        (solveQ sq ss frameCur step 1)).1.members.length,
        (((checkAndApplyFailuresQ sq ss frameCur
          (solveQ sq ss frameCur step 1)).1.members.get ⟨k, hk⟩).failed = true ↔
          ((checkAndApplyFailuresQ sq ss frameCur
            (solveQ sq ss frameCur step 1)).1.members.get ⟨k, hk⟩).id ∈
            fs ++ (checkAndApplyFailuresQ sq ss frameCur
              (solveQ sq ss frameCur step 1)).2) := by
      intro k hk
      have hk2 : k < frameCur.members.length := by
        have := hk
        rw [hfr1] at this
        simpa using this
      have hget : (checkAndApplyFailuresQ sq ss frameCur
          (solveQ sq ss frameCur step 1)).1.members.get ⟨k, hk⟩ =
          (fun m => if m.id ∈ ((solveQ sq ss frameCur step 1).member_states.filter
            (failTest sq (displacementQ sq ss frameCur) frameCur)).map
            (fun ms => ms.member_id) then { m with failed := true } else m)
            (frameCur.members.get ⟨k, hk2⟩) := by
        rw [List.get_eq_getElem, List.get_eq_getElem]
        simp only [hfr1, List.getElem_map]
      rw [hget, hnewly]
      by_cases hm : (frameCur.members.get ⟨k, hk2⟩).id ∈
          ((solveQ sq ss frameCur step 1).member_states.filter
            (failTest sq (displacementQ sq ss frameCur) frameCur)).map
            (fun ms => ms.member_id)
      · simp only [if_pos hm]
        constructor
        · intro _
          exact List.mem_append.mpr (Or.inr hm)
        · intro _
          simp
      · simp only [if_neg hm]
        rw [hinv k hk2]
        constructor
        · intro hin
          exact List.mem_append.mpr (Or.inl hin)
        · intro hin
          rcases List.mem_append.mp hin with hin2 | hin2
          · exact hin2
          · exact absurd hin2 hm
    simp only [runLoopQ] at hrun
    split at hrun
    · exact absurd hrun (by simp)
    · -- detector flagged: frame and failure sequence unchanged
      rename_i cstep heq
      simp only [Except.ok.injEq, Prod.mk.injEq] at hrun
      obtain ⟨hr, hfr⟩ := hrun
      subst hr
      subst hfr
      exact ⟨hfs, hids, hinv⟩
    · rename_i b heq
      split at hrun
      · -- all members failed: return with the marked frame and extended list
        rename_i hall
        simp only [Except.ok.injEq, Prod.mk.injEq] at hrun
        obtain ⟨hr, hfr⟩ := hrun
        subst hr
        subst hfr
        exact ⟨hfs1nd, hids1, hinv1⟩
      · rename_i hall
        split at hrun
        · -- failures occurred, redistribution replaces the last state
          rename_i hne
          exact ih _ (step + 1) _ _ _ _ r fr2 hids1 hfs1nd hinv1 hrun
        · -- no failures
          rename_i hne
          exact ih _ (step + 1) _ _ _ _ r fr2 hids1 hfs1nd hinv1 hrun

/-- C10: for every successful run on a frame with unique member ids whose
members all start unfailed, the returned failed_sequence has no duplicates,
and after the run a member's failed flag is true exactly when its id appears
in the failed_sequence. -/
theorem c10_failed_sequence (sq lg : ℚ → ℚ) (ss : (ℕ → ℕ → ℚ) → (ℕ → ℚ) → ℕ → ℚ)
    (frame : FrameData) (max_steps : ℤ) (dt : ℚ) (method : String) (thr zs : ℚ)
    (r : SimulationResult) (fr2 : FrameData)
    (hnd : (frame.members.map (fun m => m.id)).Nodup)
    (hinit : ∀ m ∈ frame.members, m.failed = false)
    (hrun : runQ sq lg ss frame max_steps dt method thr zs = .ok (r, fr2)) :
    r.failed_sequence.Nodup ∧
    fr2.members.map (fun m => m.id) = frame.members.map (fun m => m.id) ∧
    ∀ k, ∀ hk : k < fr2.members.length,
      ((fr2.members.get ⟨k, hk⟩).failed = true ↔
        (fr2.members.get ⟨k, hk⟩).id ∈ r.failed_sequence) := by
  refine runLoopQ_c10 sq lg ss dt thr zs method (frame.members.map (fun m => m.id)) hnd
    max_steps.toNat frame 0 0 [] [] [] r fr2 rfl List.nodup_nil ?_ hrun
  intro k hk
  constructor
  · intro hfl
    have := hinit (frame.members.get ⟨k, hk⟩) (frame.members.get_mem k hk)
    rw [this] at hfl
    exact absurd hfl Bool.false_ne_true
  · intro hin
    exact absurd hin (List.not_mem_nil _)

/-- Concrete combined stress of the weak frameX member under uPull. -/
lemma stressXa :
    combinedStressQ sqrtQ (⟨0, 0, 1, matWeak, false⟩ : Member) uPull frameX = 1 := by
  norm_num [combinedStressQ, transformationQ, localStiffnessQ, memberLengthQ, getNodeL,
    frameX, nodeAt, matWeak, dotQ, compQ, crossQ, normQ, smulInvQ, sqrtQ, uPull,
    Member.A, Member.Imom, Member.E, List.find?, defaultNode]

/-- Concrete equilibrium solve on frameX under uPull. -/
lemma evalSolveX :
    solveQ sqrtQ solverPullX frameX 0 1 = ⟨0, 1 / 2, [⟨0, 1 / 2, -1, 1, false⟩]⟩ := by
  norm_num [solveQ, computeMemberStateQ, transformationQ, localStiffnessQ, memberLengthQ,
    getNodeL, frameX, nodeAt, matWeak, dotQ, compQ, crossQ, normQ, smulInvQ,
    sqrtQ, uPull, solverPullX, Member.A, Member.Imom, Member.E, List.find?, defaultNode,
    max_def]

/-- Marked frameX after its member fails. -/
def frameXm : FrameData :=
  ⟨"x", [nodeAt 0 0, nodeAt 1 1], [⟨0, 0, 1, matWeak, true⟩], []⟩

/-- Concrete failure marking on frameX: the single weak member fails. -/
lemma evalCheckX :
    checkAndApplyFailuresQ sqrtQ solverPullX frameX
      ⟨0, 1 / 2, [⟨0, 1 / 2, -1, 1, false⟩]⟩ = (frameXm, [0]) := by
  have hd : displacementQ sqrtQ solverPullX frameX = uPull := rfl
  obtain ⟨e2, e1⟩ := checkFold_spec sqrtQ uPull frameX
    [⟨0, 1 / 2, -1, 1, false⟩] frameX [] (markedFrom_refl frameX)
  have hga : getMemberL frameX 0 = ⟨0, 0, 1, matWeak, false⟩ := by
    simp [getMemberL, frameX, List.find?]
  have hta : failTest sqrtQ uPull frameX ⟨0, 1 / 2, -1, 1, false⟩ = true := by
    simp only [failTest, Bool.not_false, Bool.true_and, decide_eq_true_eq, hga, stressXa]
    norm_num [Member.sigma_y, matWeak]
  have hfil : ([⟨0, 1 / 2, -1, 1, false⟩] : List MemberState).filter
      (failTest sqrtQ uPull frameX) = [⟨0, 1 / 2, -1, 1, false⟩] := by
    simp only [List.filter, hta]
  have hp : checkFold sqrtQ uPull [⟨0, 1 / 2, -1, 1, false⟩] frameX [] =
      ((checkFold sqrtQ uPull [⟨0, 1 / 2, -1, 1, false⟩] frameX []).1,
       (checkFold sqrtQ uPull [⟨0, 1 / 2, -1, 1, false⟩] frameX []).2) := rfl
  unfold checkAndApplyFailuresQ
  rw [hd, hp, e1, e2, hfil]
  simp [markFirst, frameX, frameXm]

/-- Concrete full run on frameX: the member fails at step 0 and the run
terminates with every member failed. -/
lemma evalRunX :
    runQ sqrtQ logQzero solverPullX frameX 1 1 "threshold" (-100) 3 =
      .ok (⟨"x", [⟨0, 1 / 2, [⟨0, 1 / 2, -1, 1, false⟩]⟩],
        [⟨0, 0, 0, [(0, 1)]⟩], true, some 0, [0]⟩, frameXm) := by
  have hent : computeEntropyQ logQzero ⟨0, 1 / 2, [⟨0, 1 / 2, -1, 1, false⟩]⟩ 0 =
      ⟨0, 0, 0, [(0, 1)]⟩ := by
    norm_num [computeEntropyQ, shannonEntropyQ, logQzero]
    try intro h
    try simp at h
  have hdet : detectQ sqrtQ [(⟨0, 0, 0, [(0, 1)]⟩ : EntropyRecord)] "threshold" (-100) 3 =
      .ok (false, none) := by
    norm_num [detectQ, detectCollapseThresholdQ]
    exact fun h => absurd h (by decide)
  have hall : allFailedQ frameXm = true := by decide
  unfold runQ
  have ht : (1 : ℤ).toNat = 1 := rfl
  rw [ht]
  simp only [runLoopQ, evalSolveX, List.nil_append, hent, hdet, evalCheckX, hall, if_true]
  simp [frameXm]

/-- Witness for C10 on the frameX run. -/
theorem c10_failed_sequence_witness :
    ((frameX.members.map (fun m => m.id)).Nodup ∧
      (∀ m ∈ frameX.members, m.failed = false) ∧
      runQ sqrtQ logQzero solverPullX frameX 1 1 "threshold" (-100) 3 =
        .ok (⟨"x", [⟨0, 1 / 2, [⟨0, 1 / 2, -1, 1, false⟩]⟩],
          [⟨0, 0, 0, [(0, 1)]⟩], true, some 0, [0]⟩, frameXm)) ∧
    ((⟨"x", [⟨0, 1 / 2, [⟨0, 1 / 2, -1, 1, false⟩]⟩],
        [⟨0, 0, 0, [(0, 1)]⟩], true, some 0, [0]⟩ :
          SimulationResult).failed_sequence.Nodup ∧
      frameXm.members.map (fun m => m.id) = frameX.members.map (fun m => m.id) ∧
      ∀ k, ∀ hk : k < frameXm.members.length,
        ((frameXm.members.get ⟨k, hk⟩).failed = true ↔
          (frameXm.members.get ⟨k, hk⟩).id ∈
            (⟨"x", [⟨0, 1 / 2, [⟨0, 1 / 2, -1, 1, false⟩]⟩],
              [⟨0, 0, 0, [(0, 1)]⟩], true, some 0, [0]⟩ :
                SimulationResult).failed_sequence)) :=
  ⟨⟨by decide, by decide, evalRunX⟩,
    c10_failed_sequence sqrtQ logQzero solverPullX frameX 1 1 "threshold" (-100) 3 _ frameXm
      (by decide) (by decide) evalRunX⟩
